import Mathlib

/-!
Verification of the cryptify-js envelope-encryption library against its
natural-language specification.

The JavaScript sources embedded here are:
  * `lib/cryptifyjs.js`  — the `CRYPTIFYJS` service (constructor and the four
    public operations `encrypt`, `decrypt`, `encryptMessage`, `decryptMessage`);
  * `lib/utils/aes.js`   — the `AES` utility (`AES.encrypt`, `AES.decrypt`);
  * `lib/utils/rsa.js`   — the `RSA` utility (`RSA.encrypt`, `RSA.decrypt`).

The library delegates all cryptographic primitives and base64 to the external
`node-forge` package.  Those collaborator operations (the AES block permutation,
RSA-OAEP, PEM parsing, base64) are modelled abstractly as a `Forge` structure of
operations, with the behaviour node-forge documents captured as an explicit
`ForgeOk` assumption used as a hypothesis by the theorems.  Everything the
repository itself implements — validation, envelope orchestration, CBC mode
plumbing as driven through forge's cipher API, PKCS#7 padding, JSON
serialization, the raw/UTF-8 buffer conventions, error wrapping — is embedded
concretely and executably.

JavaScript machine-level conventions used throughout:
  * a JS "binary string" (forge's byte-buffer content) is `Bytes := List (Fin 256)`;
  * thrown `Error` objects are values of `JsError`; functions that can throw
    return `Except JsError _`;
  * JS dynamic values passed to the public API are `JSValue` (numbers are
    modelled as integers; the claims do not depend on float formatting).
-/

set_option maxRecDepth 40000

/-- A byte, as stored in a forge byte buffer / JS binary string. -/
abbrev Byte := Fin 256

/-- A JS binary string / forge byte buffer content. -/
abbrev Bytes := List Byte

/-- Bytewise XOR (used by CBC chaining).  `List.zipWith` truncates to the
shorter operand, matching forge's word-wise XOR of equal-length blocks. -/
def xorBytes (a b : Bytes) : Bytes :=
  List.zipWith
    (fun x y : Byte =>
      (⟨x.val ^^^ y.val, Nat.xor_lt_two_pow (n := 8) x.isLt y.isLt⟩ : Byte)) a b

/-- A JavaScript `Error` value.  `new Error(message)` leaves `cause` absent
(`none`).  The ES2022 two-argument form `new Error(message, options)` attaches
a cause only when `options` has a `cause` property; the repository always
passes the *caught error itself* as `options` (e.g.
`throw new Error("Error while decrypting data", error)`), and an `Error`
instance has a `cause` property exactly when its own construction set one, in
which case `options.cause` is that inner cause.  `wrapError` models this. -/
inductive JsError where
  | mk (message : String) (cause : Option JsError)
deriving Repr

/-- The message carried by a JS error. -/
def JsError.message : JsError → String
  | .mk m _ => m

/-- The `cause` slot of a JS error (absent = `none`). -/
def JsError.cause : JsError → Option JsError
  | .mk _ c => c

/-- Plain `new Error(msg)` — no cause attached. -/
def jsError (msg : String) : JsError := .mk msg none

/-- Wrapping `new Error(msg, err)` where `err` is the caught error: JS reads
`options.cause` from the second argument, so the wrapper receives `err`'s own
cause (absent for every error this library ever constructs) — the caught error
itself is **not** attached. -/
def wrapError (msg : String) (err : JsError) : JsError := .mk msg err.cause

/-- A JavaScript value as passed to / produced by the public API.
Numbers are modelled as integers. -/
inductive JSValue where
  | null
  | bool (b : Bool)
  | num (n : Int)
  | str (s : String)
  | arr (elems : List JSValue)
  | obj (fields : List (String × JSValue))

/-- JS `typeof` for the modelled values (`typeof null` is `"object"`). -/
def jsTypeof : JSValue → String
  | .null => "object"
  | .bool _ => "boolean"
  | .num _ => "number"
  | .str _ => "string"
  | .arr _ => "object"
  | .obj _ => "object"

/-- JS truthiness: `null`, `false`, `0` and `""` are falsy; every object is
truthy. -/
def jsTruthy : JSValue → Bool
  | .null => false
  | .bool b => b
  | .num n => decide (n ≠ 0)
  | .str s => decide (s ≠ "")
  | .arr _ => true
  | .obj _ => true

/-- Lower-case hex digit. -/
def hexDigit (n : Nat) : Char :=
  if n < 10 then Char.ofNat (48 + n) else Char.ofNat (87 + n)

/-- The escape sequence JSON.stringify produces for one character of a string
(ECMA-262 QuoteJSONString): `"` and `\` are backslash-escaped, the named
control escapes are used for \b \t \n \f \r, all other control characters
become `\u00xx`, everything else is copied verbatim. -/
def jsonEscapeChar (c : Char) : List Char :=
  if c = '"' then ['\\', '"']
  else if c = '\\' then ['\\', '\\']
  else if c.toNat = 8 then ['\\', 'b']
  else if c.toNat = 9 then ['\\', 't']
  else if c.toNat = 10 then ['\\', 'n']
  else if c.toNat = 12 then ['\\', 'f']
  else if c.toNat = 13 then ['\\', 'r']
  else if c.toNat < 32 then
    ['\\', 'u', '0', '0', hexDigit (c.toNat / 16), hexDigit (c.toNat % 16)]
  else [c]

/-- The result of `JSON.stringify` applied to a string: the double-quoted, escaped JSON
string literal. -/
def jsonQuote (s : String) : String :=
  String.mk ('"' :: (s.data.map jsonEscapeChar).flatten ++ ['"'])

mutual
/-- JS `JSON.stringify` (as `aes.js` calls it on every payload).  Object fields
serialize in insertion order; numbers are integers in this model. -/
def jsonStringify : JSValue → String
  | .null => "null"
  | .bool true => "true"
  | .bool false => "false"
  | .num n => toString n
  | .str s => jsonQuote s
  | .arr l => "[" ++ jsonStringifyElems l ++ "]"
  | .obj l => "\x7b" ++ jsonStringifyFields l ++ "\x7d"

/-- Comma-separated serialization of array elements. -/
def jsonStringifyElems : List JSValue → String
  | [] => ""
  | [v] => jsonStringify v
  | v :: tl => jsonStringify v ++ "," ++ jsonStringifyElems tl

/-- Comma-separated serialization of object fields. -/
def jsonStringifyFields : List (String × JSValue) → String
  | [] => ""
  | [(k, v)] => jsonQuote k ++ ":" ++ jsonStringify v
  | (k, v) :: tl => jsonQuote k ++ ":" ++ jsonStringify v ++ "," ++ jsonStringifyFields tl
end

/-- Whitespace characters `JSON.parse` skips. -/
def jsonIsWs (c : Char) : Bool :=
  c = ' ' || c.toNat = 9 || c.toNat = 10 || c.toNat = 13

/-- Numeric value of a hex digit, if any. -/
def hexVal (c : Char) : Option Nat :=
  if 48 ≤ c.toNat ∧ c.toNat ≤ 57 then some (c.toNat - 48)
  else if 97 ≤ c.toNat ∧ c.toNat ≤ 102 then some (c.toNat - 87)
  else if 65 ≤ c.toNat ∧ c.toNat ≤ 70 then some (c.toNat - 55)
  else none

/-- The `SyntaxError` `JSON.parse` throws on malformed input. -/
def jsonSyntaxError : JsError := jsError "SyntaxError: Unexpected token in JSON"

/-- Parse the body of a JSON string literal (after the opening quote),
returning the decoded characters and the rest after the closing quote. -/
def jsonParseStr : Nat → List Char → Except JsError (List Char × List Char)
  | 0, _ => .error jsonSyntaxError
  | _ + 1, [] => .error jsonSyntaxError
  | fuel + 1, c :: rest =>
    if c = '"' then .ok ([], rest)
    else if c = '\\' then
      match rest with
      | [] => .error jsonSyntaxError
      | e :: rest2 =>
        let decoded : Except JsError (Char × List Char) :=
          if e = '"' then .ok ('"', rest2)
          else if e = '\\' then .ok ('\\', rest2)
          else if e = '/' then .ok ('/', rest2)
          else if e = 'b' then .ok (Char.ofNat 8, rest2)
          else if e = 't' then .ok (Char.ofNat 9, rest2)
          else if e = 'n' then .ok (Char.ofNat 10, rest2)
          else if e = 'f' then .ok (Char.ofNat 12, rest2)
          else if e = 'r' then .ok (Char.ofNat 13, rest2)
          else if e = 'u' then
            match rest2 with
            | h1 :: h2 :: h3 :: h4 :: rest3 =>
              match hexVal h1, hexVal h2, hexVal h3, hexVal h4 with
              | some a, some b, some c2, some d =>
                .ok (Char.ofNat (((a * 16 + b) * 16 + c2) * 16 + d), rest3)
              | _, _, _, _ => .error jsonSyntaxError
            | _ => .error jsonSyntaxError
          else .error jsonSyntaxError
        match decoded with
        | .error err => .error err
        | .ok (ch, rest3) =>
          match jsonParseStr fuel rest3 with
          | .error err => .error err
          | .ok (cs, rest4) => .ok (ch :: cs, rest4)
    else if c.toNat < 32 then .error jsonSyntaxError
    else
      match jsonParseStr fuel rest with
      | .error err => .error err
      | .ok (cs, rest2) => .ok (c :: cs, rest2)

/-- Parse a run of decimal digits. -/
def jsonParseDigits : Nat → List Char → (Nat × Nat × List Char)
  | 0, l => (0, 0, l)
  | _ + 1, [] => (0, 0, [])
  | fuel + 1, c :: rest =>
    if 48 ≤ c.toNat ∧ c.toNat ≤ 57 then
      let (n, k, rest2) := jsonParseDigits fuel rest
      -- value is accumulated most-significant-first via the digit count k
      (((c.toNat - 48) * 10 ^ k + n), k + 1, rest2)
    else (0, 0, c :: rest)

mutual
/-- Recursive-descent `JSON.parse` over a character list, fuel-bounded.
Fractional and exponent forms are rejected (numbers are modelled as
integers); the claims only exercise integer payloads. -/
def jsonParseVal : Nat → List Char → Except JsError (JSValue × List Char)
  | 0, _ => .error jsonSyntaxError
  | fuel + 1, input =>
    match input.dropWhile jsonIsWs with
    | [] => .error jsonSyntaxError
    | c :: rest =>
      if c = 'n' then
        match rest with
        | 'u' :: 'l' :: 'l' :: rest2 => .ok (.null, rest2)
        | _ => .error jsonSyntaxError
      else if c = 't' then
        match rest with
        | 'r' :: 'u' :: 'e' :: rest2 => .ok (.bool true, rest2)
        | _ => .error jsonSyntaxError
      else if c = 'f' then
        match rest with
        | 'a' :: 'l' :: 's' :: 'e' :: rest2 => .ok (.bool false, rest2)
        | _ => .error jsonSyntaxError
      else if c = '"' then
        match jsonParseStr fuel rest with
        | .error err => .error err
        | .ok (cs, rest2) => .ok (.str (String.mk cs), rest2)
      else if c = '[' then
        match rest.dropWhile jsonIsWs with
        | ']' :: rest2 => .ok (.arr [], rest2)
        | rest2 =>
          match jsonParseElems fuel rest2 with
          | .error err => .error err
          | .ok (vs, rest3) => .ok (.arr vs, rest3)
      else if c = Char.ofNat 123 then
        match rest.dropWhile jsonIsWs with
        | c2 :: rest2 =>
          if c2 = Char.ofNat 125 then .ok (.obj [], rest2)
          else
            match jsonParseFields fuel (c2 :: rest2) with
            | .error err => .error err
            | .ok (fs, rest3) => .ok (.obj fs, rest3)
        | [] => .error jsonSyntaxError
      else if c = '-' then
        match rest with
        | d :: _ =>
          if 48 ≤ d.toNat ∧ d.toNat ≤ 57 then
            let (n, k, rest2) := jsonParseDigits fuel rest
            if k = 0 then .error jsonSyntaxError
            else
              match rest2 with
              | '.' :: _ => .error jsonSyntaxError
              | 'e' :: _ => .error jsonSyntaxError
              | 'E' :: _ => .error jsonSyntaxError
              | _ => .ok (.num (-(n : Int)), rest2)
          else .error jsonSyntaxError
        | [] => .error jsonSyntaxError
      else if 48 ≤ c.toNat ∧ c.toNat ≤ 57 then
        let (n, k, rest2) := jsonParseDigits fuel (c :: rest)
        if k = 0 then .error jsonSyntaxError
        else
          match rest2 with
          | '.' :: _ => .error jsonSyntaxError
          | 'e' :: _ => .error jsonSyntaxError
          | 'E' :: _ => .error jsonSyntaxError
          | _ => .ok (.num (n : Int), rest2)
      else .error jsonSyntaxError

/-- Parse one-or-more comma-separated array elements up to `]`. -/
def jsonParseElems : Nat → List Char → Except JsError (List JSValue × List Char)
  | 0, _ => .error jsonSyntaxError
  | fuel + 1, input =>
    match jsonParseVal fuel input with
    | .error err => .error err
    | .ok (v, rest) =>
      match rest.dropWhile jsonIsWs with
      | ']' :: rest2 => .ok ([v], rest2)
      | ',' :: rest2 =>
        match jsonParseElems fuel rest2 with
        | .error err => .error err
        | .ok (vs, rest3) => .ok (v :: vs, rest3)
      | _ => .error jsonSyntaxError

/-- Parse one-or-more comma-separated object members up to the closing brace. -/
def jsonParseFields : Nat → List Char →
    Except JsError (List (String × JSValue) × List Char)
  | 0, _ => .error jsonSyntaxError
  | fuel + 1, input =>
    match input.dropWhile jsonIsWs with
    | '"' :: rest =>
      match jsonParseStr fuel rest with
      | .error err => .error err
      | .ok (cs, rest2) =>
        match rest2.dropWhile jsonIsWs with
        | ':' :: rest3 =>
          match jsonParseVal fuel rest3 with
          | .error err => .error err
          | .ok (v, rest4) =>
            match rest4.dropWhile jsonIsWs with
            | c :: rest5 =>
              if c = Char.ofNat 125 then .ok ([(String.mk cs, v)], rest5)
              else if c = ',' then
                match jsonParseFields fuel rest5 with
                | .error err => .error err
                | .ok (fs, rest6) => .ok ((String.mk cs, v) :: fs, rest6)
              else .error jsonSyntaxError
            | [] => .error jsonSyntaxError
        | _ => .error jsonSyntaxError
    | _ => .error jsonSyntaxError
end

/-- JS `JSON.parse`: parse one value, then require only trailing whitespace. -/
def jsonParse (s : String) : Except JsError JSValue :=
  match jsonParseVal (s.length + 1) s.data with
  | .error err => .error err
  | .ok (v, rest) =>
    if rest.dropWhile jsonIsWs = [] then .ok v else .error jsonSyntaxError

/-- Model of `forge.util.createBuffer(s)` with the default `'raw'` encoding:
each UTF-16 code unit of the JS string is stored as a byte.  This model is
faithful only for code units up to U+00FF; above that, forge's buffer
arithmetic composes the *unmasked* `charCodeAt` values with shifts and XORs,
spilling bits across byte lanes, so no simple per-character byte image
matches it.  Every theorem below that relies on this conversion therefore
restricts itself to ASCII payload text, where the model and forge agree. -/
def rawBytesOfString (s : String) : Bytes :=
  s.data.map (fun c => (⟨c.toNat % 256, Nat.mod_lt _ (by decide)⟩ : Byte))

/-- UTF-8 encoding of a string, byte by byte (the spec's "UTF-8 bytes of S"). -/
def utf8EncodeChar (c : Char) : Bytes :=
  let n := c.toNat
  if h : n < 128 then [⟨n, by omega⟩]
  else if h2 : n < 2048 then
    [⟨192 + n / 64, by omega⟩, ⟨128 + n % 64, by omega⟩]
  else if h3 : n < 65536 then
    [⟨224 + n / 4096, by omega⟩, ⟨128 + n / 64 % 64, by omega⟩, ⟨128 + n % 64, by omega⟩]
  else
    -- code points are < 0x110000, so n / 0x40000 ≤ 4; the % 8 is a no-op
    -- that keeps the byte bound arithmetic closed
    [⟨240 + n / 262144 % 8, by omega⟩, ⟨128 + n / 4096 % 64, by omega⟩,
     ⟨128 + n / 64 % 64, by omega⟩, ⟨128 + n % 64, by omega⟩]

/-- UTF-8 encoding of a whole string. -/
def utf8Encode (s : String) : Bytes :=
  (s.data.map utf8EncodeChar).flatten

/-- The `URIError` forge's `decodeUtf8` raises on malformed UTF-8. -/
def uriError : JsError := jsError "URIError: URI malformed"

/-- UTF-8 decoding of a byte list (forge's `ByteBuffer.toString()`, i.e.
`decodeUtf8`), fuel-bounded; malformed sequences raise `URIError`. -/
def utf8DecodeAux : Nat → Bytes → Except JsError (List Char)
  | _, [] => .ok []
  | 0, _ :: _ => .error uriError
  | fuel + 1, b :: rest =>
    if b.val < 128 then
      match utf8DecodeAux fuel rest with
      | .error e => .error e
      | .ok cs => .ok (Char.ofNat b.val :: cs)
    else if b.val < 194 then .error uriError
    else if b.val < 224 then
      match rest with
      | b2 :: rest2 =>
        if 128 ≤ b2.val ∧ b2.val < 192 then
          match utf8DecodeAux fuel rest2 with
          | .error e => .error e
          | .ok cs => .ok (Char.ofNat ((b.val - 192) * 64 + (b2.val - 128)) :: cs)
        else .error uriError
      | _ => .error uriError
    else if b.val < 240 then
      match rest with
      | b2 :: b3 :: rest2 =>
        if (128 ≤ b2.val ∧ b2.val < 192) ∧ (128 ≤ b3.val ∧ b3.val < 192) then
          match utf8DecodeAux fuel rest2 with
          | .error e => .error e
          | .ok cs =>
            .ok (Char.ofNat (((b.val - 224) * 64 + (b2.val - 128)) * 64 + (b3.val - 128)) :: cs)
        else .error uriError
      | _ => .error uriError
    else if b.val < 245 then
      match rest with
      | b2 :: b3 :: b4 :: rest2 =>
        if (128 ≤ b2.val ∧ b2.val < 192) ∧ (128 ≤ b3.val ∧ b3.val < 192) ∧
            (128 ≤ b4.val ∧ b4.val < 192) then
          match utf8DecodeAux fuel rest2 with
          | .error e => .error e
          | .ok cs =>
            .ok (Char.ofNat ((((b.val - 240) * 64 + (b2.val - 128)) * 64 +
              (b3.val - 128)) * 64 + (b4.val - 128)) :: cs)
        else .error uriError
      | _ => .error uriError
    else .error uriError

/-- forge's `decipher.output.toString()`: decode the buffer as UTF-8. -/
def forgeToString (bs : Bytes) : Except JsError String :=
  match utf8DecodeAux bs.length bs with
  | .error e => .error e
  | .ok cs => .ok (String.mk cs)

/-- Hash algorithms relevant to the library's OAEP configuration. -/
inductive HashAlg where
  | sha1
  | sha256
deriving DecidableEq, Repr

/-- The options object passed to forge's `publicKey.encrypt(.., 'RSA-OAEP', options)`
and `privateKey.decrypt`: an optional main digest `md` and an optional
`mgf1: {md: ..}` hash. -/
structure OaepOptions where
  md : Option HashAlg
  mgf1Md : Option HashAlg
deriving DecidableEq, Repr

/-- The effective (resolved) OAEP parameters. -/
structure ResolvedOaep where
  md : HashAlg
  mgf1Md : HashAlg
deriving DecidableEq, Repr

/-- forge's parameter defaulting (`pkcs1.js`): the main digest defaults to
SHA-1, and the MGF1 digest defaults to **the main digest** when no
`mgf1.md` is supplied. -/
def oaepResolve (o : OaepOptions) : ResolvedOaep :=
  let md := o.md.getD .sha1
  { md := md, mgf1Md := o.mgf1Md.getD md }

/-- The OAEP options `lib/cryptifyjs.js` passes on the object path
(`encrypt`/`decrypt`): `md: sha256, mgf1: {md: sha1}`. -/
def objectPathOaepOptions : OaepOptions := { md := some .sha256, mgf1Md := some .sha1 }

/-- The OAEP options `lib/utils/rsa.js` passes on the message path:
`md: sha256` and **no** `mgf1` entry. -/
def rsaUtilsOaepOptions : OaepOptions := { md := some .sha256, mgf1Md := none }

/-- The external `node-forge` collaborator: the AES block permutation behind
`forge.cipher` (the repository drives CBC mode and padding through forge's
cipher API, which this file models concretely on top of the block function),
RSA-OAEP, PEM key parsing, and base64.  `PubKey`/`PrivKey` are the parsed key
object types. -/
structure Forge (PubKey PrivKey : Type) where
  aesEncryptBlock : Bytes → Bytes → Bytes
  aesDecryptBlock : Bytes → Bytes → Bytes
  rsaEncrypt : PubKey → OaepOptions → Bytes → Except JsError Bytes
  rsaDecrypt : PrivKey → OaepOptions → Bytes → Except JsError Bytes
  publicKeyFromPem : Bytes → Except JsError PubKey
  privateKeyFromPem : Bytes → Except JsError PrivKey
  encode64 : Bytes → String
  decode64 : String → Bytes

/-- PKCS#7 padding as forge's CBC `pad` applies it at `cipher.finish()`:
append `16 - len % 16` bytes, each equal to that count (a full block of
`16`s when the input is already block-aligned). -/
def pkcs7pad (bs : Bytes) : Bytes :=
  let k := 16 - bs.length % 16
  bs ++ List.replicate k (⟨k, by omega⟩ : Byte)

/-- Split off `n` blocks of 16 bytes from the front of a byte list (forge's
`update` loop processes exactly `len / 16` full blocks and leaves the rest
buffered). -/
def takeBlocks : Nat → Bytes → List Bytes
  | 0, _ => []
  | n + 1, l => l.take 16 :: takeBlocks n (l.drop 16)

/-- CBC encryption over a block list: `C_i = E(P_i XOR C_(i-1))` with the IV
as `C_(-1)`. -/
def cbcEncList {PubKey PrivKey : Type} (F : Forge PubKey PrivKey) (key : Bytes) :
    Bytes → List Bytes → List Bytes
  | _, [] => []
  | prev, b :: bs =>
    let c := F.aesEncryptBlock key (xorBytes b prev)
    c :: cbcEncList F key c bs

/-- CBC decryption over a block list: `P_i = D(C_i) XOR C_(i-1)`. -/
def cbcDecList {PubKey PrivKey : Type} (F : Forge PubKey PrivKey) (key : Bytes) :
    Bytes → List Bytes → List Bytes
  | _, [] => []
  | prev, c :: cs => xorBytes (F.aesDecryptBlock key c) prev :: cbcDecList F key c cs

/-- forge `createCipher('AES-CBC', key)` key-schedule check: any other key
length throws `invalid key parameter`. -/
def forgeValidAesKey (key : Bytes) : Prop :=
  key.length = 16 ∨ key.length = 24 ∨ key.length = 32

instance (key : Bytes) : Decidable (forgeValidAesKey key) := by
  unfold forgeValidAesKey; infer_instance

/-- forge's `cipher.start({iv}) / update / finish` pipeline for AES-CBC
encryption: key-length and IV-length validation, PKCS#7 padding, CBC over the
block permutation.  An IV longer than 16 bytes is truncated to its first
block, shorter ones throw (forge `transformIV`). -/
def forgeAesCbcEncrypt {PubKey PrivKey : Type} (F : Forge PubKey PrivKey)
    (key iv data : Bytes) : Except JsError Bytes :=
  if ¬ forgeValidAesKey key then .error (jsError "invalid key parameter")
  else if iv.length < 16 then .error (jsError "Invalid IV length")
  else
    let padded := pkcs7pad data
    .ok (cbcEncList F key (iv.take 16) (takeBlocks (padded.length / 16) padded)).flatten

/-- forge's decryption pipeline: processes the full 16-byte blocks, then
`finish()` runs CBC `unpad`, which returns `false` (without truncating) when
the input was not block-aligned or when the final byte exceeds
`blockSize << 2 = 64` (forge checks nothing else about the padding bytes!),
and otherwise truncates that many bytes and returns `true`.  The returned
`Bool` is `finish()`'s result; the buffer contents are returned either way.
(An empty ciphertext reaching `unpad` is unreachable through the service API,
whose validation rejects empty inputs.) -/
def forgeAesCbcDecrypt {PubKey PrivKey : Type} (F : Forge PubKey PrivKey)
    (key iv data : Bytes) : Except JsError (Bool × Bytes) :=
  if ¬ forgeValidAesKey key then .error (jsError "invalid key parameter")
  else if iv.length < 16 then .error (jsError "Invalid IV length")
  else
    let out := (cbcDecList F key (iv.take 16) (takeBlocks (data.length / 16) data)).flatten
    if data.length % 16 ≠ 0 then .ok (false, out)
    else
      match out.getLast? with
      | none => .ok (true, out)
      | some cnt =>
        if 64 < cnt.val then .ok (false, out)
        else .ok (true, out.take (out.length - cnt.val))

/-- The record returned by `aes.js` `AES.encrypt`. -/
structure EncryptedData where
  key : Bytes
  iv : Bytes
  data : Bytes
deriving Repr, DecidableEq

/-- Source `lib/utils/aes.js` `AES.encrypt(data)`:
`data = JSON.stringify(data)` (unconditionally — including when the caller
passed a plain string), generate a 32-byte key and a 16-byte IV from the
secure random source, AES-CBC-encrypt the raw-encoded text, and return all
three.  The two `forge.random.getBytesSync` calls are modelled by the
`entropy` argument: the key is its first 32 bytes, the IV the next 16.
Any thrown error is caught and re-thrown as `new Error("Error while
encrypting data", error)`. -/
def AES.encrypt {PubKey PrivKey : Type} (F : Forge PubKey PrivKey)
    (entropy : Bytes) (data : JSValue) : Except JsError EncryptedData :=
  let text := jsonStringify data
  let symmetricKey := entropy.take 32
  let iv := (entropy.drop 32).take 16
  match forgeAesCbcEncrypt F symmetricKey iv (rawBytesOfString text) with
  | .error e => .error (wrapError "Error while encrypting data" e)
  | .ok encryptedData => .ok { key := symmetricKey, iv := iv, data := encryptedData }

/-- Source `lib/utils/aes.js` `AES.decrypt(key, iv, data)`: run forge's AES-CBC
decipher and return `decipher.output.toString()`.  The boolean result of
`decipher.finish()` — the padding check — is **ignored** by the source.
Errors thrown inside (bad key/IV length, UTF-8 decode failure) are wrapped as
`new Error("Error while decrypting data", error)`. -/
def AES.decrypt {PubKey PrivKey : Type} (F : Forge PubKey PrivKey)
    (key iv data : Bytes) : Except JsError String :=
  match forgeAesCbcDecrypt F key iv data with
  | .error e => .error (wrapError "Error while decrypting data" e)
  | .ok (_finishOk, out) =>
    match forgeToString out with
    | .error e => .error (wrapError "Error while decrypting data" e)
    | .ok s => .ok s

/-- Source `lib/utils/rsa.js` `RSA.encrypt(message, publicKey)`:
`publicKey.encrypt(message, 'RSA-OAEP', {md: sha256})` — note there is no
`mgf1` entry — then base64-encode.  A thrown error is logged and re-thrown as
`new Error("Error while encrypting message", error)`. -/
def RSA.encrypt {PubKey PrivKey : Type} (F : Forge PubKey PrivKey)
    (message : Bytes) (publicKey : PubKey) : Except JsError String :=
  match F.rsaEncrypt publicKey rsaUtilsOaepOptions message with
  | .error e => .error (wrapError "Error while encrypting message" e)
  | .ok encryptedMessage => .ok (F.encode64 encryptedMessage)

/-- Source `lib/utils/rsa.js` `RSA.decrypt(encryptedMessage, privateKey)`:
`privateKey.decrypt(decode64(encryptedMessage), 'RSA-OAEP', {md: sha256})` —
again with no `mgf1` entry.  Errors are wrapped as
`new Error("Error while decrypting message", error)`. -/
def RSA.decrypt {PubKey PrivKey : Type} (F : Forge PubKey PrivKey)
    (encryptedMessage : String) (privateKey : PrivKey) : Except JsError Bytes :=
  match F.rsaDecrypt privateKey rsaUtilsOaepOptions (F.decode64 encryptedMessage) with
  | .error e => .error (wrapError "Error while decrypting message" e)
  | .ok decryptedMessage => .ok decryptedMessage

/-- The options object the `CRYPTIFYJS` constructor receives; a missing field
is JS `undefined`, modelled as `none`. -/
structure CryptifyOptions where
  publicKey : Option String
  privateKey : Option String

/-- The service state: the parsed RSA key pair, held immutably for the
instance's lifetime (the embedding is pure — no operation returns a modified
service). -/
structure CRYPTIFYJS (PubKey PrivKey : Type) where
  publicKey : PubKey
  privateKey : PrivKey

/-- The envelope returned by the object path `encrypt`: the RSA ciphertext of
the AES key, the raw IV and the raw AES ciphertext, all as binary strings —
not further text-encoded on this path. -/
structure ObjectEnvelope where
  key : Bytes
  iv : Bytes
  data : Bytes
deriving Repr, DecidableEq

/-- The envelope returned by `encryptMessage`: all three fields base64 text. -/
structure MessageEnvelope where
  key : String
  iv : String
  message : String
deriving Repr, DecidableEq

/-- The `TypeError` raised when `forge.util.decode64` is called with
`undefined` (a missing options field): `undefined.replace` does not exist. -/
def decode64TypeError : JsError :=
  jsError "TypeError: Cannot read properties of undefined (reading 'replace')"

/-- The `CRYPTIFYJS(options)` constructor (`lib/cryptifyjs.js`): rejects a
missing options object, then parses
`forge.pki.publicKeyFromPem(forge.util.decode64(options.publicKey))` and the
same for the private key.  There is no try/catch here: a missing field
surfaces as the `TypeError` thrown inside `decode64`, and an unparseable key
surfaces as forge's own parse error. -/
def CRYPTIFYJS.mkService {PubKey PrivKey : Type} (F : Forge PubKey PrivKey)
    (options : Option CryptifyOptions) : Except JsError (CRYPTIFYJS PubKey PrivKey) :=
  match options with
  | none => .error (jsError "cryptify-js module requires an options object")
  | some opts =>
    match opts.publicKey with
    | none => .error decode64TypeError
    | some pub64 =>
      match F.publicKeyFromPem (F.decode64 pub64) with
      | .error e => .error e
      | .ok publicKey =>
        match opts.privateKey with
        | none => .error decode64TypeError
        | some priv64 =>
          match F.privateKeyFromPem (F.decode64 priv64) with
          | .error e => .error e
          | .ok privateKey => .ok { publicKey := publicKey, privateKey := privateKey }

/-- Method `CRYPTIFYJS.prototype.encrypt(data)` — the object path.  Validation first
(`!data` → required, `typeof data !== "object"` → type), then inside one
try/catch: `aesUtils.encrypt(data)` and
`this.publicKey.encrypt(key, 'RSA-OAEP', {md: sha256, mgf1: {md: sha1}})`.
Any caught error is re-thrown as
`new Error("Error while encrypting data", error)`. -/
def CRYPTIFYJS.encrypt {PubKey PrivKey : Type} (F : Forge PubKey PrivKey)
    (self : CRYPTIFYJS PubKey PrivKey) (entropy : Bytes) (data : JSValue) :
    Except JsError ObjectEnvelope :=
  if !(jsTruthy data) then .error (jsError "Data is required for encryption")
  else if jsTypeof data ≠ "object" then .error (jsError "Data must be an object")
  else
    match AES.encrypt F entropy data with
    | .error e => .error (wrapError "Error while encrypting data" e)
    | .ok encryptedData =>
      match F.rsaEncrypt self.publicKey objectPathOaepOptions encryptedData.key with
      | .error e => .error (wrapError "Error while encrypting data" e)
      | .ok encryptedKey =>
        .ok { key := encryptedKey, iv := encryptedData.iv, data := encryptedData.data }

/-- Method `CRYPTIFYJS.prototype.decrypt(key, iv, data)` — the object path.  The
three arguments are binary strings; `!x` is emptiness (the
`typeof x !== "string"` check always passes for string inputs and is not
modelled separately on this path).  Inside one try/catch:
`this.privateKey.decrypt(key, 'RSA-OAEP', {md: sha256, mgf1: {md: sha1}})`,
`aesUtils.decrypt`, then `JSON.parse`; any caught error (including a JSON
`SyntaxError`) is re-thrown as
`new Error("Error while decrypting data", error)`.  (The unused
`new Date().toISOString()` in the source has no observable effect.) -/
def CRYPTIFYJS.decrypt {PubKey PrivKey : Type} (F : Forge PubKey PrivKey)
    (self : CRYPTIFYJS PubKey PrivKey) (key iv data : Bytes) :
    Except JsError JSValue :=
  if key.isEmpty || iv.isEmpty || data.isEmpty then
    .error (jsError "Key, IV, and Data are required for decryption")
  else
    match F.rsaDecrypt self.privateKey objectPathOaepOptions key with
    | .error e => .error (wrapError "Error while decrypting data" e)
    | .ok decryptedKey =>
      match AES.decrypt F decryptedKey iv data with
      | .error e => .error (wrapError "Error while decrypting data" e)
      | .ok decryptedData =>
        match jsonParse decryptedData with
        | .error e => .error (wrapError "Error while decrypting data" e)
        | .ok v => .ok v

/-- Method `CRYPTIFYJS.prototype.encryptMessage(message)` — the message path.
Validation (`!message` → required, `typeof message !== "string"` → type),
then inside one try/catch: `aesUtils.encrypt(message)` (which JSON-stringifies
the string!), `rsaUtils.encrypt(key, this.publicKey)` (already base64), and
base64-encoding of IV and ciphertext.  Caught errors are re-thrown as
`new Error("Error while encrypting message", error)`. -/
def CRYPTIFYJS.encryptMessage {PubKey PrivKey : Type} (F : Forge PubKey PrivKey)
    (self : CRYPTIFYJS PubKey PrivKey) (entropy : Bytes) (message : JSValue) :
    Except JsError MessageEnvelope :=
  if !(jsTruthy message) then .error (jsError "Message is required for encryption")
  else if jsTypeof message ≠ "string" then .error (jsError "Message must be a string")
  else
    match AES.encrypt F entropy message with
    | .error e => .error (wrapError "Error while encrypting message" e)
    | .ok encryptedData =>
      match RSA.encrypt F encryptedData.key self.publicKey with
      | .error e => .error (wrapError "Error while encrypting message" e)
      | .ok encryptedKey =>
        .ok { key := encryptedKey, iv := F.encode64 encryptedData.iv,
              message := F.encode64 encryptedData.data }

/-- Method `CRYPTIFYJS.prototype.decryptMessage(key, iv, message)` — the message
path.  Validation (truthiness of all three, then `typeof`), then inside one
try/catch: `rsaUtils.decrypt(key, this.privateKey)`, base64-decoding of iv
and message, and `aesUtils.decrypt`.  The decrypted text is returned
directly — there is **no** `JSON.parse` on this path.  Caught errors are
re-thrown as `new Error("Error while decrypting message", error)`. -/
def CRYPTIFYJS.decryptMessage {PubKey PrivKey : Type} (F : Forge PubKey PrivKey)
    (self : CRYPTIFYJS PubKey PrivKey) (key iv message : JSValue) :
    Except JsError String :=
  if !(jsTruthy key) || !(jsTruthy iv) || !(jsTruthy message) then
    .error (jsError "Key, IV, and Message are required for decryption")
  else
    match key, iv, message with
    | .str k, .str i, .str m =>
      match RSA.decrypt F k self.privateKey with
      | .error e => .error (wrapError "Error while decrypting message" e)
      | .ok decryptedKey =>
        let decryptedIV := F.decode64 i
        match AES.decrypt F decryptedKey decryptedIV (F.decode64 m) with
        | .error e => .error (wrapError "Error while decrypting message" e)
        | .ok decryptedMessage => .ok decryptedMessage
    | _, _, _ => .error (jsError "Key, IV, and Message must be strings")

/-- The behaviour of node-forge that the repository relies on, stated as an
assumption about a `Forge` instance together with a matching key pair:
the AES block function is a length-preserving keyed permutation; RSA-OAEP
under the public key succeeds on payloads within the 2048-bit key's OAEP
capacity (≈190 bytes) producing a non-empty ciphertext, and decryption with
the matching private key and the *same* options inverts it; base64 decoding
inverts encoding, and base64 of non-empty input is non-empty. -/
structure ForgeOk {PubKey PrivKey : Type} (F : Forge PubKey PrivKey)
    (pub : PubKey) (priv : PrivKey) : Prop where
  aesBlock_length : ∀ key block, block.length = 16 → (F.aesEncryptBlock key block).length = 16
  aesBlock_leftInv : ∀ key block, block.length = 16 →
    F.aesDecryptBlock key (F.aesEncryptBlock key block) = block
  rsaEncrypt_ok : ∀ opts m, m.length ≤ 190 →
    ∃ c, F.rsaEncrypt pub opts m = .ok c ∧ c ≠ []
  rsaDecrypt_inv : ∀ opts m c, F.rsaEncrypt pub opts m = .ok c →
    F.rsaDecrypt priv opts c = .ok m
  decode64_encode64 : ∀ bs, F.decode64 (F.encode64 bs) = bs
  encode64_ne_empty : ∀ bs, bs ≠ [] → F.encode64 bs ≠ ""

/-- A two-byte tag identifying resolved OAEP parameters (used by the toy
forge instance so that the parameters an encryption was performed with are
observable in its output). -/
def hashCode : HashAlg → Byte   -- numeric label of a hash algorithm
  | .sha1 => 1
  | .sha256 => 2

def oaepTag (o : OaepOptions) : Bytes :=
  [hashCode (oaepResolve o).md, hashCode (oaepResolve o).mgf1Md]

/-- A concrete, fully executable `Forge` instance for witnesses and
counterexamples: the AES block permutation is the identity (a legitimate
length-preserving permutation), RSA-OAEP prepends a parameter tag (so that
mismatched OAEP options fail to decrypt, as with real OAEP), and base64 is
modelled by the injective byte-to-character embedding. -/
def toyForge : Forge Unit Unit where
  aesEncryptBlock := fun _ block => block
  aesDecryptBlock := fun _ block => block
  rsaEncrypt := fun _ opts m => .ok (oaepTag opts ++ m)
  rsaDecrypt := fun _ opts c =>
    if c.take 2 = oaepTag opts then .ok (c.drop 2)
    else .error (jsError "Encryption block is invalid.")
  publicKeyFromPem := fun bs =>
    if bs = [] then .error (jsError "Could not convert public key from PEM.") else .ok ()
  privateKeyFromPem := fun bs =>
    if bs = [] then .error (jsError "Could not convert private key from PEM.") else .ok ()
  encode64 := fun bs => String.mk (bs.map (fun b => Char.ofNat b.val))
  decode64 := fun s => s.data.map (fun c => (⟨c.toNat % 256, Nat.mod_lt _ (by decide)⟩ : Byte))

/-- The toy service instance (key pair already parsed). -/
def toyService : CRYPTIFYJS Unit Unit := { publicKey := (), privateKey := () }

/-- Char round-trip for byte values (all < 0xD800, hence valid code points). -/
theorem char_toNat_ofNat_byte (b : Byte) : (Char.ofNat b.val).toNat = b.val := by
  revert b; decide

/-- The toy forge satisfies the node-forge behavioural assumption. -/
theorem toyForgeOk : ForgeOk toyForge () () := by
  refine ⟨?_, ?_, ?_, ?_, ?_, ?_⟩
  · intro key block h; simpa [toyForge] using h
  · intro key block _; simp [toyForge]
  · intro opts m _
    exact ⟨oaepTag opts ++ m, rfl, by simp [oaepTag]⟩
  · intro opts m c h
    simp only [toyForge] at h ⊢
    cases h
    simp [oaepTag]
  · intro bs
    simp only [toyForge]
    induction bs with
    | nil => rfl
    | cons b tl ih =>
      simp only [List.map_cons] at ih ⊢
      rw [ih]
      congr 1
      exact Fin.ext (by simp only [Fin.val_mk, char_toNat_ofNat_byte]; exact Nat.mod_eq_of_lt b.isLt)
  · intro bs h
    cases bs with
    | nil => exact absurd rfl h
    | cons b tl =>
      intro hcontra
      have := congrArg String.data hcontra
      simp only [toyForge, List.map_cons] at this
      exact List.cons_ne_nil _ _ this

/-- Splitting a block-aligned list yields blocks of exactly 16 bytes. -/
theorem takeBlocks_length_mem {l : Bytes} {n : Nat} (h : l.length = 16 * n) :
    ∀ b ∈ takeBlocks n l, b.length = 16 := by
  induction n generalizing l with
  | zero => intro b hb; simp [takeBlocks] at hb
  | succ n ih =>
    intro b hb
    simp only [takeBlocks, List.mem_cons] at hb
    rcases hb with hb | hb
    · subst hb; rw [List.length_take]; omega
    · exact ih (by rw [List.length_drop]; omega) b hb

/-- Splitting then flattening a block-aligned list is the identity. -/
theorem flatten_takeBlocks {l : Bytes} {n : Nat} (h : l.length = 16 * n) :
    (takeBlocks n l).flatten = l := by
  induction n generalizing l with
  | zero =>
    have : l = [] := List.eq_nil_of_length_eq_zero (by omega)
    subst this; rfl
  | succ n ih =>
    simp only [takeBlocks, List.flatten_cons]
    rw [ih (by rw [List.length_drop]; omega)]
    exact List.take_append_drop 16 l

/-- Flattening a list of 16-byte blocks then re-splitting recovers it. -/
theorem takeBlocks_flatten {bs : List Bytes} (h : ∀ b ∈ bs, b.length = 16) :
    takeBlocks bs.length bs.flatten = bs := by
  induction bs with
  | nil => rfl
  | cons b tl ih =>
    have hb : b.length = 16 := h b (List.mem_cons_self b tl)
    simp only [List.length_cons, List.flatten_cons, takeBlocks]
    rw [List.take_append_of_le_length (by omega), List.take_of_length_le (by omega),
      List.drop_append_of_le_length (by omega), List.drop_of_length_le (by omega),
      List.nil_append, ih (fun x hx => h x (List.mem_cons_of_mem b hx))]

/-- The flattened result of a list of 16-byte blocks has length `16 * count`. -/
theorem flatten_length_of_blocks {bs : List Bytes} (h : ∀ b ∈ bs, b.length = 16) :
    bs.flatten.length = 16 * bs.length := by
  induction bs with
  | nil => rfl
  | cons b tl ih =>
    simp only [List.flatten_cons, List.length_append, List.length_cons]
    rw [h b (List.mem_cons_self b tl), ih (fun x hx => h x (List.mem_cons_of_mem b hx))]
    ring

/-- XOR of equal-length byte blocks cancels on the right. -/
theorem xorBytes_cancel {a b : Bytes} (h : a.length = b.length) :
    xorBytes (xorBytes a b) b = a := by
  induction a generalizing b with
  | nil => cases b <;> simp [xorBytes]
  | cons x tl ih =>
    cases b with
    | nil => simp at h
    | cons y tlb =>
      simp only [xorBytes, List.zipWith_cons_cons] at ih ⊢
      congr 1
      · exact Fin.ext (Nat.xor_cancel_right y.val x.val)
      · exact ih (by simpa using h)

/-- XOR preserves the length of equal-length blocks. -/
theorem xorBytes_length {a b : Bytes} (h : a.length = b.length) :
    (xorBytes a b).length = a.length := by
  simp [xorBytes]; omega

/-- CBC ciphertext blocks are 16 bytes whenever the plaintext blocks are. -/
theorem cbcEncList_block_lengths {PubKey PrivKey : Type} {F : Forge PubKey PrivKey}
    {pub : PubKey} {priv : PrivKey} (hF : ForgeOk F pub priv) (key : Bytes)
    {blocks : List Bytes} (hb : ∀ b ∈ blocks, b.length = 16)
    {prev : Bytes} (hprev : prev.length = 16) :
    ∀ c ∈ cbcEncList F key prev blocks, c.length = 16 := by
  induction blocks generalizing prev with
  | nil => intro c hc; simp [cbcEncList] at hc
  | cons b tl ih =>
    intro c hc
    have hblen : b.length = 16 := hb b (List.mem_cons_self b tl)
    have hxlen : (xorBytes b prev).length = 16 := by
      rw [xorBytes_length (by omega)]; exact hblen
    have hclen : (F.aesEncryptBlock key (xorBytes b prev)).length = 16 :=
      hF.aesBlock_length key _ hxlen
    simp only [cbcEncList, List.mem_cons] at hc
    rcases hc with hc | hc
    · subst hc; exact hclen
    · exact ih (fun x hx => hb x (List.mem_cons_of_mem b hx)) hclen c hc

/-- CBC decryption inverts CBC encryption blockwise. -/
theorem cbcDecList_cbcEncList {PubKey PrivKey : Type} {F : Forge PubKey PrivKey}
    {pub : PubKey} {priv : PrivKey} (hF : ForgeOk F pub priv) (key : Bytes)
    {blocks : List Bytes} (hb : ∀ b ∈ blocks, b.length = 16)
    {prev : Bytes} (hprev : prev.length = 16) :
    cbcDecList F key prev (cbcEncList F key prev blocks) = blocks := by
  induction blocks generalizing prev with
  | nil => rfl
  | cons b tl ih =>
    have hblen : b.length = 16 := hb b (List.mem_cons_self b tl)
    have hxlen : (xorBytes b prev).length = 16 := by
      rw [xorBytes_length (by omega)]; exact hblen
    simp only [cbcEncList, cbcDecList]
    rw [hF.aesBlock_leftInv key _ hxlen, xorBytes_cancel (by omega),
      ih (fun x hx => hb x (List.mem_cons_of_mem b hx)) (hF.aesBlock_length key _ hxlen)]

/-- The padded length is the next multiple of 16 (always strictly larger). -/
theorem pkcs7pad_length (bs : Bytes) :
    (pkcs7pad bs).length = bs.length + (16 - bs.length % 16) := by
  simp [pkcs7pad]

/-- The padded list is block-aligned. -/
theorem pkcs7pad_aligned (bs : Bytes) : (pkcs7pad bs).length % 16 = 0 := by
  rw [pkcs7pad_length]
  omega

/-- The last element of a list followed by a non-empty replicate run. -/
theorem getLast?_append_replicate {α : Type} (l : List α) (k : Nat) (v : α)
    (h : k ≠ 0) : (l ++ List.replicate k v).getLast? = some v := by
  rw [List.getLast?_append]
  cases k with
  | zero => exact absurd rfl h
  | succ k =>
    rw [List.replicate_succ', List.getLast?_append]
    simp

/-- The last byte of a padded list is the pad count. -/
theorem pkcs7pad_getLast (bs : Bytes) :
    (pkcs7pad bs).getLast? = some (⟨16 - bs.length % 16, by omega⟩ : Byte) := by
  exact getLast?_append_replicate bs _ _ (by omega)

/-- Unpadding what `pkcs7pad` padded recovers the original bytes. -/
theorem pkcs7pad_take (bs : Bytes) :
    (pkcs7pad bs).take ((pkcs7pad bs).length - (16 - bs.length % 16)) = bs := by
  unfold pkcs7pad
  simp only [List.length_append, List.length_replicate]
  have : bs.length + (16 - bs.length % 16) - (16 - bs.length % 16) = bs.length := by omega
  rw [this, List.take_left]


/-- CBC encryption preserves the number of blocks. -/
theorem cbcEncList_length {PubKey PrivKey : Type} (F : Forge PubKey PrivKey)
    (key : Bytes) (blocks : List Bytes) :
    ∀ prev, (cbcEncList F key prev blocks).length = blocks.length := by
  induction blocks with
  | nil => intro prev; rfl
  | cons b tl ih =>
    intro prev
    simp only [cbcEncList, List.length_cons]
    rw [ih]

/-- Splitting with `takeBlocks n` always yields exactly `n` blocks. -/
theorem takeBlocks_length (n : Nat) (l : Bytes) : (takeBlocks n l).length = n := by
  induction n generalizing l with
  | zero => rfl
  | succ n ih => simp only [takeBlocks, List.length_cons, ih]

/-- forge AES-CBC decryption inverts forge AES-CBC encryption (matching key
and IV of the right lengths): `finish()`'s padding check passes and the
output buffer holds exactly the original data. -/
theorem forgeAesCbc_roundtrip {PubKey PrivKey : Type} {F : Forge PubKey PrivKey}
    {pub : PubKey} {priv : PrivKey} (hF : ForgeOk F pub priv)
    {key iv data ct : Bytes} (hkey : forgeValidAesKey key) (hiv : iv.length = 16)
    (henc : forgeAesCbcEncrypt F key iv data = .ok ct) :
    forgeAesCbcDecrypt F key iv ct = .ok (true, data) := by
  have hivlt : ¬ iv.length < 16 := by omega
  have hivtlen : (iv.take 16).length = 16 := by rw [List.length_take]; omega
  unfold forgeAesCbcEncrypt at henc
  rw [if_neg (by simpa using hkey), if_neg hivlt] at henc
  have hct : ct = (cbcEncList F key (iv.take 16)
      (takeBlocks ((pkcs7pad data).length / 16) (pkcs7pad data))).flatten := by
    cases henc; rfl
  have halign : (pkcs7pad data).length % 16 = 0 := pkcs7pad_aligned data
  have hpadlen : (pkcs7pad data).length = 16 * ((pkcs7pad data).length / 16) := by omega
  have hblocks : ∀ b ∈ takeBlocks ((pkcs7pad data).length / 16) (pkcs7pad data),
      b.length = 16 := takeBlocks_length_mem hpadlen
  have hctblocks := cbcEncList_block_lengths hF key hblocks hivtlen
  have hcount : (cbcEncList F key (iv.take 16)
      (takeBlocks ((pkcs7pad data).length / 16) (pkcs7pad data))).length
      = (pkcs7pad data).length / 16 := by
    rw [cbcEncList_length, takeBlocks_length]
  have hctlen : ct.length = 16 * ((pkcs7pad data).length / 16) := by
    rw [hct, flatten_length_of_blocks hctblocks, hcount]
  have hctdiv : ct.length / 16 = (pkcs7pad data).length / 16 := by omega
  have hctmod : ct.length % 16 = 0 := by omega
  -- re-splitting the ciphertext recovers the encrypted block list
  have h1 : takeBlocks (ct.length / 16) ct
      = cbcEncList F key (iv.take 16)
          (takeBlocks ((pkcs7pad data).length / 16) (pkcs7pad data)) := by
    rw [hctdiv, hct]
    nth_rewrite 1 [← hcount]
    exact takeBlocks_flatten hctblocks
  -- the decryption output buffer is exactly the padded plaintext
  have hout : (cbcDecList F key (iv.take 16) (takeBlocks (ct.length / 16) ct)).flatten
      = pkcs7pad data := by
    rw [h1, cbcDecList_cbcEncList hF key hblocks hivtlen, flatten_takeBlocks hpadlen]
  unfold forgeAesCbcDecrypt
  rw [if_neg (by simpa using hkey), if_neg hivlt]
  simp only [hout, hctmod]
  rw [if_neg (by omega)]
  rw [pkcs7pad_getLast data]
  have hpadcnt : ¬ (64 < 16 - data.length % 16) := by omega
  simp only [hpadcnt, if_false]
  rw [pkcs7pad_take data]

/-- A string is ASCII when all its characters are below 128; the raw ('binary')
buffer encoding and UTF-8 decoding invert each other exactly on such strings. -/
def allAscii (s : String) : Prop := ∀ c ∈ s.data, c.toNat < 128

instance (s : String) : Decidable (allAscii s) := by
  unfold allAscii; infer_instance

/-- UTF-8 decoding the raw byte image of an ASCII string gives it back. -/
theorem utf8DecodeAux_ascii (l : List Char) (h : ∀ c ∈ l, c.toNat < 128) :
    utf8DecodeAux (l.map (fun c => (⟨c.toNat % 256, Nat.mod_lt _ (by decide)⟩ : Byte))).length
      (l.map (fun c => (⟨c.toNat % 256, Nat.mod_lt _ (by decide)⟩ : Byte))) = .ok l := by
  induction l with
  | nil => rfl
  | cons c tl ih =>
    have hc : c.toNat < 128 := h c (List.mem_cons_self c tl)
    have hcmod : c.toNat % 256 = c.toNat := Nat.mod_eq_of_lt (by omega)
    simp only [List.map_cons, List.length_cons, utf8DecodeAux, Fin.val_mk, hcmod]
    rw [if_pos hc, ih (fun x hx => h x (List.mem_cons_of_mem c hx))]
    rw [Char.ofNat_toNat]

/-- Evaluating `decipher.output.toString()` on the raw bytes of an ASCII string. -/
theorem forgeToString_rawBytes {s : String} (h : allAscii s) :
    forgeToString (rawBytesOfString s) = .ok s := by
  unfold forgeToString rawBytesOfString
  rw [utf8DecodeAux_ascii s.data h]

/-- With 48 bytes of entropy, `AES.encrypt` always succeeds; the returned key
and IV are exactly the first 32 and next 16 entropy bytes and the ciphertext
is forge's CBC encryption of the raw bytes of the JSON-stringified payload. -/
theorem aesEncrypt_ok {PubKey PrivKey : Type} {F : Forge PubKey PrivKey}
    {pub : PubKey} {priv : PrivKey} (hF : ForgeOk F pub priv)
    (entropy : Bytes) (d : JSValue) (hlen : entropy.length = 48) :
    ∃ ct, AES.encrypt F entropy d
        = .ok { key := entropy.take 32, iv := (entropy.drop 32).take 16, data := ct }
      ∧ forgeAesCbcEncrypt F (entropy.take 32) ((entropy.drop 32).take 16)
          (rawBytesOfString (jsonStringify d)) = .ok ct
      ∧ ct ≠ [] := by
  have hk : (entropy.take 32).length = 32 := by rw [List.length_take]; omega
  have hi : ((entropy.drop 32).take 16).length = 16 := by
    rw [List.length_take, List.length_drop]; omega
  have hkv : forgeValidAesKey (entropy.take 32) := Or.inr (Or.inr hk)
  have henc : forgeAesCbcEncrypt F (entropy.take 32) ((entropy.drop 32).take 16)
      (rawBytesOfString (jsonStringify d))
      = .ok (cbcEncList F (entropy.take 32) (((entropy.drop 32).take 16).take 16)
          (takeBlocks ((pkcs7pad (rawBytesOfString (jsonStringify d))).length / 16)
            (pkcs7pad (rawBytesOfString (jsonStringify d))))).flatten := by
    unfold forgeAesCbcEncrypt
    rw [if_neg (by simpa using hkv), if_neg (by omega)]
  refine ⟨_, ?_, henc, ?_⟩
  · unfold AES.encrypt
    simp only [henc]
  · -- the ciphertext is 16 * (number of blocks) bytes, and there is at least one block
    have hpl : (pkcs7pad (rawBytesOfString (jsonStringify d))).length % 16 = 0 :=
      pkcs7pad_aligned _
    have hplpos : 1 ≤ (pkcs7pad (rawBytesOfString (jsonStringify d))).length := by
      rw [pkcs7pad_length]; omega
    have hpadlen : (pkcs7pad (rawBytesOfString (jsonStringify d))).length
        = 16 * ((pkcs7pad (rawBytesOfString (jsonStringify d))).length / 16) := by omega
    have hit : (((entropy.drop 32).take 16).take 16).length = 16 := by
      rw [List.length_take]; omega
    have hblocks := takeBlocks_length_mem hpadlen
    have hctblocks := cbcEncList_block_lengths hF (entropy.take 32) hblocks hit
    intro hnil
    have hlen0 := flatten_length_of_blocks hctblocks
    rw [hnil] at hlen0
    simp only [List.length_nil] at hlen0
    rw [cbcEncList_length, takeBlocks_length] at hlen0
    omega

/-- Successful shape of `encryptMessage` on a non-empty string with 48
entropy bytes: the key field is base64 of the RSA-OAEP (rsa.js options)
ciphertext of the fresh AES key, the iv field is base64 of the fresh IV, and
the message field is base64 of the CBC ciphertext of the **JSON-stringified**
message's raw bytes. -/
theorem encryptMessage_ok {PubKey PrivKey : Type} {F : Forge PubKey PrivKey}
    {pub : PubKey} {priv : PrivKey} (hF : ForgeOk F pub priv)
    (entropy : Bytes) (S : String) (hlen : entropy.length = 48) (hS : S ≠ "") :
    ∃ c ct,
      CRYPTIFYJS.encryptMessage F { publicKey := pub, privateKey := priv } entropy (.str S)
        = .ok { key := F.encode64 c, iv := F.encode64 ((entropy.drop 32).take 16),
                message := F.encode64 ct }
      ∧ F.rsaEncrypt pub rsaUtilsOaepOptions (entropy.take 32) = .ok c ∧ c ≠ []
      ∧ forgeAesCbcEncrypt F (entropy.take 32) ((entropy.drop 32).take 16)
          (rawBytesOfString (jsonStringify (.str S))) = .ok ct ∧ ct ≠ [] := by
  obtain ⟨ct, haes, henc, hctne⟩ := aesEncrypt_ok hF entropy (.str S) hlen
  have hklen : (entropy.take 32).length = 32 := by rw [List.length_take]; omega
  obtain ⟨c, hrsa, hcne⟩ := hF.rsaEncrypt_ok rsaUtilsOaepOptions (entropy.take 32) (by omega)
  refine ⟨c, ct, ?_, hrsa, hcne, henc, hctne⟩
  unfold CRYPTIFYJS.encryptMessage
  have htruthy : jsTruthy (.str S) = true := by simp [jsTruthy, hS]
  rw [htruthy]
  simp only [Bool.not_true, Bool.false_eq_true, if_false]
  rw [if_neg (by simp [jsTypeof])]
  rw [haes]
  simp only [RSA.encrypt, hrsa]

/-- Round-trip core of the message path: `decryptMessage` applied to the
envelope produced by `encryptMessage` recovers the **JSON-stringified**
message (nothing un-stringifies it), provided the stringified form is ASCII. -/
theorem decryptMessage_encryptMessage {PubKey PrivKey : Type} {F : Forge PubKey PrivKey}
    {pub : PubKey} {priv : PrivKey} (hF : ForgeOk F pub priv)
    {entropy : Bytes} {S : String} {env : MessageEnvelope}
    (hlen : entropy.length = 48) (hS : S ≠ "")
    (hA : allAscii (jsonStringify (.str S)))
    (henv : CRYPTIFYJS.encryptMessage F { publicKey := pub, privateKey := priv }
        entropy (.str S) = .ok env) :
    CRYPTIFYJS.decryptMessage F { publicKey := pub, privateKey := priv }
        (.str env.key) (.str env.iv) (.str env.message)
      = .ok (jsonStringify (.str S)) := by
  obtain ⟨c, ct, henv2, hrsa, hcne, hcbc, hctne⟩ := encryptMessage_ok hF entropy S hlen hS
  rw [henv] at henv2
  cases henv2
  have hivlen : ((entropy.drop 32).take 16).length = 16 := by
    rw [List.length_take, List.length_drop]; omega
  have hklen : (entropy.take 32).length = 32 := by rw [List.length_take]; omega
  have hivne : (entropy.drop 32).take 16 ≠ [] := by
    intro hn
    rw [hn] at hivlen
    simp at hivlen
  unfold CRYPTIFYJS.decryptMessage
  rw [if_neg (by
    simp only [jsTruthy, Bool.not_eq_true]
    rw [decide_eq_true (hF.encode64_ne_empty c hcne),
      decide_eq_true (hF.encode64_ne_empty _ hivne),
      decide_eq_true (hF.encode64_ne_empty ct hctne)]
    simp)]
  simp only [RSA.decrypt, AES.decrypt, hF.decode64_encode64,
    hF.rsaDecrypt_inv rsaUtilsOaepOptions (entropy.take 32) c hrsa,
    forgeAesCbc_roundtrip hF (Or.inr (Or.inr hklen)) hivlen hcbc,
    forgeToString_rawBytes hA]

/-- Successful shape of the object path `encrypt` on a truthy object with 48
entropy bytes: RSA-OAEP (object-path options, `mgf1: sha1`) ciphertext of the
fresh key, the raw fresh IV, and the raw CBC ciphertext of the serialized
payload. -/
theorem encrypt_ok {PubKey PrivKey : Type} {F : Forge PubKey PrivKey}
    {pub : PubKey} {priv : PrivKey} (hF : ForgeOk F pub priv)
    (entropy : Bytes) (P : JSValue) (hlen : entropy.length = 48)
    (hTruthy : jsTruthy P = true) (hType : jsTypeof P = "object") :
    ∃ c ct,
      CRYPTIFYJS.encrypt F { publicKey := pub, privateKey := priv } entropy P
        = .ok { key := c, iv := (entropy.drop 32).take 16, data := ct }
      ∧ F.rsaEncrypt pub objectPathOaepOptions (entropy.take 32) = .ok c ∧ c ≠ []
      ∧ forgeAesCbcEncrypt F (entropy.take 32) ((entropy.drop 32).take 16)
          (rawBytesOfString (jsonStringify P)) = .ok ct ∧ ct ≠ [] := by
  obtain ⟨ct, haes, henc, hctne⟩ := aesEncrypt_ok hF entropy P hlen
  have hklen : (entropy.take 32).length = 32 := by rw [List.length_take]; omega
  obtain ⟨c, hrsa, hcne⟩ := hF.rsaEncrypt_ok objectPathOaepOptions (entropy.take 32) (by omega)
  refine ⟨c, ct, ?_, hrsa, hcne, henc, hctne⟩
  unfold CRYPTIFYJS.encrypt
  rw [hTruthy]
  simp only [Bool.not_true, Bool.false_eq_true, if_false]
  rw [if_neg (by rw [hType]; simp)]
  rw [haes]
  simp only [hrsa]

/-- Round-trip core of the object path: `decrypt` applied to the envelope
produced by `encrypt` recovers the payload, provided `JSON.parse` inverts
`JSON.stringify` on it and the serialized form is ASCII. -/
theorem decrypt_encrypt {PubKey PrivKey : Type} {F : Forge PubKey PrivKey}
    {pub : PubKey} {priv : PrivKey} (hF : ForgeOk F pub priv)
    {entropy : Bytes} {P : JSValue} {env : ObjectEnvelope}
    (hlen : entropy.length = 48)
    (hTruthy : jsTruthy P = true) (hType : jsTypeof P = "object")
    (hJson : jsonParse (jsonStringify P) = .ok P)
    (hA : allAscii (jsonStringify P))
    (henv : CRYPTIFYJS.encrypt F { publicKey := pub, privateKey := priv }
        entropy P = .ok env) :
    CRYPTIFYJS.decrypt F { publicKey := pub, privateKey := priv }
        env.key env.iv env.data = .ok P := by
  obtain ⟨c, ct, henv2, hrsa, hcne, hcbc, hctne⟩ := encrypt_ok hF entropy P hlen hTruthy hType
  rw [henv] at henv2
  cases henv2
  have hivlen : ((entropy.drop 32).take 16).length = 16 := by
    rw [List.length_take, List.length_drop]; omega
  have hklen : (entropy.take 32).length = 32 := by rw [List.length_take]; omega
  have hivne : (entropy.drop 32).take 16 ≠ [] := by
    intro hn
    rw [hn] at hivlen
    simp at hivlen
  unfold CRYPTIFYJS.decrypt
  rw [if_neg (by
    simp only [List.isEmpty_eq_true, Bool.or_eq_true, not_or]
    exact ⟨⟨hcne, hivne⟩, hctne⟩)]
  simp only [AES.decrypt, hF.rsaDecrypt_inv objectPathOaepOptions (entropy.take 32) c hrsa,
    forgeAesCbc_roundtrip hF (Or.inr (Or.inr hklen)) hivlen hcbc,
    forgeToString_rawBytes hA, hJson]

/-- A concrete 48-byte entropy sample (the bytes `forge.random.getBytesSync`
hands out in one encryption call: 32 key bytes then 16 IV bytes). -/
def ent48 : Bytes := (List.range 48).map (fun n => (⟨n % 256, Nat.mod_lt _ (by decide)⟩ : Byte))

/-- The envelope `encryptMessage` produces for the message `"hi"` on the toy
forge instance with the `ent48` entropy. -/
def hiEnvelope : MessageEnvelope :=
  (CRYPTIFYJS.encryptMessage toyForge toyService ent48 (.str "hi")).toOption.getD
    { key := "", iv := "", message := "" }

/-- C1, claim as stated, refuted at `S = "hi"`: the message round-trip does
not return `S` — `aes.js` encrypts `JSON.stringify(S)` (the quoted JSON
string literal) and `decryptMessage` never parses it back, so the round-trip
returns `"\"hi\""`. -/
theorem C1_roundtrip_counterexample :
    CRYPTIFYJS.encryptMessage toyForge toyService ent48 (.str "hi") = .ok hiEnvelope
    ∧ CRYPTIFYJS.decryptMessage toyForge toyService
        (.str hiEnvelope.key) (.str hiEnvelope.iv) (.str hiEnvelope.message)
      = .ok "\x22hi\x22"
    ∧ "\x22hi\x22" ≠ "hi" := by
  refine ⟨rfl, rfl, by decide⟩

/-- C1 amended: for every non-empty string `S` whose JSON-stringified form is
ASCII (the library's raw-vs-UTF-8 buffer handling corrupts non-Latin-1 text),
`decryptMessage` applied to the three fields of `encryptMessage(S)` on a
matching key pair returns `JSON.stringify(S)` — the JSON string literal of
`S`, quotes and escapes included — rather than `S` itself. -/
theorem C1_roundtrip_returns_stringified {PubKey PrivKey : Type}
    {F : Forge PubKey PrivKey} {pub : PubKey} {priv : PrivKey}
    (hF : ForgeOk F pub priv) (entropy : Bytes) (S : String)
    (hlen : entropy.length = 48) (hS : S ≠ "")
    (hA : allAscii (jsonStringify (.str S))) :
    ∃ env : MessageEnvelope,
      CRYPTIFYJS.encryptMessage F { publicKey := pub, privateKey := priv }
          entropy (.str S) = .ok env
      ∧ CRYPTIFYJS.decryptMessage F { publicKey := pub, privateKey := priv }
          (.str env.key) (.str env.iv) (.str env.message)
        = .ok (jsonStringify (.str S)) := by
  obtain ⟨c, ct, henv, _⟩ := encryptMessage_ok hF entropy S hlen hS
  exact ⟨_, henv, decryptMessage_encryptMessage hF hlen hS hA henv⟩

/-- Witness for the amended C1 theorem at the toy instance and `S = "hi"`. -/
theorem C1_roundtrip_returns_stringified_witness :
    ∃ env : MessageEnvelope,
      CRYPTIFYJS.encryptMessage toyForge { publicKey := (), privateKey := () }
          ent48 (.str "hi") = .ok env
      ∧ CRYPTIFYJS.decryptMessage toyForge { publicKey := (), privateKey := () }
          (.str env.key) (.str env.iv) (.str env.message)
        = .ok (jsonStringify (.str "hi")) :=
  C1_roundtrip_returns_stringified toyForgeOk ent48 "hi" (by decide) (by decide) (by decide)

/-- The `message` field as claim C2 describes it (spec §6): base64 of the
AES-CBC (PKCS#7 padded) encryption of exactly the UTF-8 bytes of `S` under
the given key and IV.  This definition follows the claim's words, to be
compared with what `encryptMessage` actually produces. -/
def specClaimedMessageField {PubKey PrivKey : Type} (F : Forge PubKey PrivKey)
    (key iv : Bytes) (S : String) : Except JsError String :=
  match forgeAesCbcEncrypt F key iv (utf8Encode S) with
  | .error e => .error e
  | .ok ct => .ok (F.encode64 ct)

/-- The value of the claimed message field at the C2 counterexample input. -/
def hiClaimedMessage : String :=
  (specClaimedMessageField toyForge (ent48.take 32) ((ent48.drop 32).take 16) "hi").toOption.getD ""

/-- C2, claim as stated, refuted at `S = "hi"`: the message field is not the
encryption of the UTF-8 bytes of `S` — `aes.js` first replaces the message by
`JSON.stringify(message)`, so the encrypted plaintext is `"\"hi\""`, not
`"hi"`. -/
theorem C2_message_field_counterexample :
    CRYPTIFYJS.encryptMessage toyForge toyService ent48 (.str "hi") = .ok hiEnvelope
    ∧ specClaimedMessageField toyForge (ent48.take 32) ((ent48.drop 32).take 16) "hi"
        = .ok hiClaimedMessage
    ∧ hiEnvelope.message ≠ hiClaimedMessage := by
  refine ⟨rfl, rfl, by decide⟩

/-- On ASCII text the raw buffer image coincides with the UTF-8 encoding. -/
theorem rawBytes_eq_utf8Encode {s : String} (h : allAscii s) :
    rawBytesOfString s = utf8Encode s := by
  unfold rawBytesOfString utf8Encode
  have main : ∀ l : List Char, (∀ c ∈ l, c.toNat < 128) →
      l.map (fun c => (⟨c.toNat % 256, Nat.mod_lt _ (by decide)⟩ : Byte))
        = (l.map utf8EncodeChar).flatten := by
    intro l hl
    induction l with
    | nil => rfl
    | cons c tl ih =>
      have hc : c.toNat < 128 := hl c (List.mem_cons_self c tl)
      simp only [List.map_cons, List.flatten_cons]
      rw [← ih (fun x hx => hl x (List.mem_cons_of_mem c hx))]
      unfold utf8EncodeChar
      rw [dif_pos hc]
      simp only [List.singleton_append, List.cons.injEq]
      exact ⟨Fin.ext (Nat.mod_eq_of_lt (by omega)), trivial⟩
  exact main s.data h

/-- C2 amended: for every non-empty string `S` whose JSON-stringified form is
ASCII (outside that domain forge's raw buffer arithmetic garbles the text, so
no per-character byte image describes the ciphertext), the `message` field of
`encryptMessage(S)` is the base64 encoding of the AES-256-CBC (PKCS#7 padded)
encryption, under the freshly generated key and IV, of the bytes of
`JSON.stringify(S)` — the JSON string literal of `S` — not of the UTF-8 bytes
of `S` itself. -/
theorem C2_message_field_stringified {PubKey PrivKey : Type}
    {F : Forge PubKey PrivKey} {pub : PubKey} {priv : PrivKey}
    (hF : ForgeOk F pub priv) (entropy : Bytes) (S : String)
    (hlen : entropy.length = 48) (hS : S ≠ "")
    (hA : allAscii (jsonStringify (.str S))) :
    ∃ env ct,
      CRYPTIFYJS.encryptMessage F { publicKey := pub, privateKey := priv }
          entropy (.str S) = .ok env
      ∧ forgeAesCbcEncrypt F (entropy.take 32) ((entropy.drop 32).take 16)
          (rawBytesOfString (jsonStringify (.str S))) = .ok ct
      ∧ rawBytesOfString (jsonStringify (.str S)) = utf8Encode (jsonStringify (.str S))
      ∧ env.message = F.encode64 ct
      ∧ env.iv = F.encode64 ((entropy.drop 32).take 16) := by
  obtain ⟨c, ct, henv, hrsa, hcne, hcbc, hctne⟩ := encryptMessage_ok hF entropy S hlen hS
  exact ⟨_, ct, henv, hcbc, rawBytes_eq_utf8Encode hA, rfl, rfl⟩

/-- Witness for the amended C2 theorem at the toy instance and `S = "hi"`. -/
theorem C2_message_field_stringified_witness :
    ∃ env ct,
      CRYPTIFYJS.encryptMessage toyForge { publicKey := (), privateKey := () }
          ent48 (.str "hi") = .ok env
      ∧ forgeAesCbcEncrypt toyForge (ent48.take 32) ((ent48.drop 32).take 16)
          (rawBytesOfString (jsonStringify (.str "hi"))) = .ok ct
      ∧ rawBytesOfString (jsonStringify (.str "hi")) = utf8Encode (jsonStringify (.str "hi"))
      ∧ env.message = toyForge.encode64 ct
      ∧ env.iv = toyForge.encode64 ((ent48.drop 32).take 16) :=
  C2_message_field_stringified toyForgeOk ent48 "hi" (by decide) (by decide) (by decide)

/-- The RSA-OAEP ciphertext of the fresh AES key as claim C3 describes it
(spec §6): encrypted with SHA-256 as the OAEP digest and SHA-1 as the MGF1
hash, i.e. with forge options `{md: sha256, mgf1: {md: sha1}}`, at the C3
counterexample input on the toy instance. -/
def hiClaimedKeyCiphertext : Bytes :=
  (toyForge.rsaEncrypt () { md := some .sha256, mgf1Md := some .sha1 }
    (ent48.take 32)).toOption.getD []

/-- C3, claim as stated, refuted: `rsa.js` passes only `{md: sha256}` with no
`mgf1` entry, and forge defaults the MGF1 hash to the main digest, so the
message-path OAEP uses SHA-256 for MGF1, not SHA-1; on a primitive model that
records the parameters, the produced key field differs from the claimed
SHA-1-MGF1 encryption. -/
theorem C3_oaep_counterexample :
    CRYPTIFYJS.encryptMessage toyForge toyService ent48 (.str "hi") = .ok hiEnvelope
    ∧ hiEnvelope.key ≠ toyForge.encode64 hiClaimedKeyCiphertext
    ∧ (oaepResolve rsaUtilsOaepOptions).mgf1Md ≠ HashAlg.sha1 := by
  refine ⟨rfl, by decide, by decide⟩

/-- C3 amended: the `key` field of `encryptMessage(S)` is the base64 encoding
of the RSA-OAEP encryption of the fresh 32-byte AES key performed with the
`rsa.js` options `{md: sha256}` — which forge resolves to SHA-256 as the OAEP
digest **and** SHA-256 as the MGF1 hash (the MGF1 hash defaults to the main
digest) — and `decryptMessage`'s RSA step uses exactly the same options, so
the two sides match. -/
theorem C3_oaep_params {PubKey PrivKey : Type}
    {F : Forge PubKey PrivKey} {pub : PubKey} {priv : PrivKey}
    (hF : ForgeOk F pub priv) (entropy : Bytes) (S : String)
    (hlen : entropy.length = 48) (hS : S ≠ "") :
    (∃ env c,
      CRYPTIFYJS.encryptMessage F { publicKey := pub, privateKey := priv }
          entropy (.str S) = .ok env
      ∧ F.rsaEncrypt pub rsaUtilsOaepOptions (entropy.take 32) = .ok c
      ∧ env.key = F.encode64 c)
    ∧ oaepResolve rsaUtilsOaepOptions = { md := .sha256, mgf1Md := .sha256 }
    ∧ (∀ s : String, RSA.decrypt F s priv =
        match F.rsaDecrypt priv rsaUtilsOaepOptions (F.decode64 s) with
        | .error e => .error (wrapError "Error while decrypting message" e)
        | .ok m => .ok m) := by
  obtain ⟨c, ct, henv, hrsa, hcne, hcbc, hctne⟩ := encryptMessage_ok hF entropy S hlen hS
  exact ⟨⟨_, c, henv, hrsa, rfl⟩, rfl, fun s => rfl⟩

/-- Witness for the amended C3 theorem at the toy instance and `S = "hi"`. -/
theorem C3_oaep_params_witness :
    (∃ env c,
      CRYPTIFYJS.encryptMessage toyForge { publicKey := (), privateKey := () }
          ent48 (.str "hi") = .ok env
      ∧ toyForge.rsaEncrypt () rsaUtilsOaepOptions (ent48.take 32) = .ok c
      ∧ env.key = toyForge.encode64 c)
    ∧ oaepResolve rsaUtilsOaepOptions = { md := .sha256, mgf1Md := .sha256 }
    ∧ (∀ s : String, RSA.decrypt toyForge s () =
        match toyForge.rsaDecrypt () rsaUtilsOaepOptions (toyForge.decode64 s) with
        | .error e => .error (wrapError "Error while decrypting message" e)
        | .ok m => .ok m) :=
  C3_oaep_params toyForgeOk ent48 "hi" (by decide) (by decide)

/-- A payload that satisfies the C4 claim's own restriction
(`JSON.parse(JSON.stringify(P)) = P`) but whose serialized form is not
ASCII: `{a: "é"}`. -/
def eAcuteObj : JSValue := .obj [("a", .str "\u00e9")]

/-- The envelope the object path produces for `eAcuteObj` on the toy
instance. -/
def eAcuteEnvelope : ObjectEnvelope :=
  (CRYPTIFYJS.encrypt toyForge toyService ent48 eAcuteObj).toOption.getD
    { key := [], iv := [], data := [] }

/-- C4, claim as stated, refuted at `P = {a: "é"}`: the payload is a truthy
object and JSON-round-trips to itself, yet `decrypt(encrypt(P))` throws
instead of returning `P` — the cipher buffer is filled with the raw Latin-1
code units of `JSON.stringify(P)` while `decipher.output.toString()`
UTF-8-decodes them, which fails on the `é` byte (a `URIError` in forge,
surfacing as the wrapped decrypt error). -/
theorem C4_object_roundtrip_counterexample :
    jsonParse (jsonStringify eAcuteObj) = .ok eAcuteObj
    ∧ jsTruthy eAcuteObj = true
    ∧ jsTypeof eAcuteObj = "object"
    ∧ CRYPTIFYJS.encrypt toyForge toyService ent48 eAcuteObj = .ok eAcuteEnvelope
    ∧ CRYPTIFYJS.decrypt toyForge toyService
        eAcuteEnvelope.key eAcuteEnvelope.iv eAcuteEnvelope.data
      = .error (JsError.mk "Error while decrypting data" none)
    ∧ (Except.error (JsError.mk "Error while decrypting data" none)
        : Except JsError JSValue) ≠ .ok eAcuteObj := by
  refine ⟨rfl, rfl, rfl, rfl, rfl, fun h => Except.noConfusion h⟩

/-- C4 amended: for every truthy object payload `P` that `JSON.parse` ∘
`JSON.stringify` maps to itself **and whose serialized form is ASCII** (the
raw/UTF-8 buffer asymmetry makes decryption throw on non-ASCII
serializations, as the counterexample shows), `decrypt` applied to the key,
iv and data fields returned by `encrypt(P)` on a matching key pair returns
`P`. -/
theorem C4_object_roundtrip {PubKey PrivKey : Type}
    {F : Forge PubKey PrivKey} {pub : PubKey} {priv : PrivKey}
    (hF : ForgeOk F pub priv) (entropy : Bytes) (P : JSValue)
    (hlen : entropy.length = 48)
    (hTruthy : jsTruthy P = true) (hType : jsTypeof P = "object")
    (hJson : jsonParse (jsonStringify P) = .ok P)
    (hA : allAscii (jsonStringify P)) :
    ∃ env : ObjectEnvelope,
      CRYPTIFYJS.encrypt F { publicKey := pub, privateKey := priv } entropy P = .ok env
      ∧ CRYPTIFYJS.decrypt F { publicKey := pub, privateKey := priv }
          env.key env.iv env.data = .ok P := by
  obtain ⟨c, ct, henv, _⟩ := encrypt_ok hF entropy P hlen hTruthy hType
  exact ⟨_, henv, decrypt_encrypt hF hlen hTruthy hType hJson hA henv⟩

/-- Witness for C4 at the toy instance and `P = {a: 1, b: "x"}`. -/
theorem C4_object_roundtrip_witness :
    ∃ env : ObjectEnvelope,
      CRYPTIFYJS.encrypt toyForge { publicKey := (), privateKey := () } ent48
          (.obj [("a", .num 1), ("b", .str "x")]) = .ok env
      ∧ CRYPTIFYJS.decrypt toyForge { publicKey := (), privateKey := () }
          env.key env.iv env.data = .ok (.obj [("a", .num 1), ("b", .str "x")]) :=
  C4_object_roundtrip toyForgeOk ent48 (.obj [("a", .num 1), ("b", .str "x")])
    (by decide) rfl rfl rfl (by decide)

/-- C5 confirmed: each encryption call consumes fresh random bytes — 32 key
bytes then 16 IV bytes — used for that call alone: on the object path the
fresh key (RSA-encrypted) and the fresh IV come from that call's entropy, on
the message path likewise, and two calls consuming distinct 48-byte random
draws necessarily produce distinct (key, IV) pairs.  (Nothing is stored: the
service state is only the key pair, and the operations are pure functions of
it, the call's entropy and the payload.) -/
theorem C5_fresh_key_iv {PubKey PrivKey : Type}
    {F : Forge PubKey PrivKey} {pub : PubKey} {priv : PrivKey}
    (hF : ForgeOk F pub priv) (e1 e2 : Bytes) (P : JSValue) (S : String)
    (h1 : e1.length = 48) (h2 : e2.length = 48) (hne : e1 ≠ e2)
    (hTruthy : jsTruthy P = true) (hType : jsTypeof P = "object") (hS : S ≠ "") :
    (∃ c ct, CRYPTIFYJS.encrypt F { publicKey := pub, privateKey := priv } e1 P
        = .ok { key := c, iv := (e1.drop 32).take 16, data := ct }
      ∧ F.rsaEncrypt pub objectPathOaepOptions (e1.take 32) = .ok c)
    ∧ (∃ c ct, CRYPTIFYJS.encryptMessage F { publicKey := pub, privateKey := priv }
          e2 (.str S)
        = .ok { key := F.encode64 c, iv := F.encode64 ((e2.drop 32).take 16),
                message := F.encode64 ct }
      ∧ F.rsaEncrypt pub rsaUtilsOaepOptions (e2.take 32) = .ok c)
    ∧ (e1.take 32, (e1.drop 32).take 16) ≠ (e2.take 32, (e2.drop 32).take 16) := by
  obtain ⟨c1, ct1, henv1, hrsa1, _⟩ := encrypt_ok hF e1 P h1 hTruthy hType
  obtain ⟨c2, ct2, henv2, hrsa2, _⟩ := encryptMessage_ok hF e2 S h2 hS
  refine ⟨⟨c1, ct1, henv1, hrsa1⟩, ⟨c2, ct2, henv2, hrsa2⟩, ?_⟩
  intro hpair
  apply hne
  have hfst : e1.take 32 = e2.take 32 := congrArg Prod.fst hpair
  have hsnd : (e1.drop 32).take 16 = (e2.drop 32).take 16 := congrArg Prod.snd hpair
  have hd1 : (e1.drop 32).take 16 = e1.drop 32 :=
    List.take_of_length_le (by rw [List.length_drop]; omega)
  have hd2 : (e2.drop 32).take 16 = e2.drop 32 :=
    List.take_of_length_le (by rw [List.length_drop]; omega)
  rw [hd1, hd2] at hsnd
  calc e1 = e1.take 32 ++ e1.drop 32 := (List.take_append_drop 32 e1).symm
    _ = e2.take 32 ++ e2.drop 32 := by rw [hfst, hsnd]
    _ = e2 := List.take_append_drop 32 e2

/-- Witness for C5 at the toy instance with two distinct entropies. -/
theorem C5_fresh_key_iv_witness :
    (∃ c ct, CRYPTIFYJS.encrypt toyForge { publicKey := (), privateKey := () } ent48
        (.obj [("a", .num 1)])
        = .ok { key := c, iv := (ent48.drop 32).take 16, data := ct }
      ∧ toyForge.rsaEncrypt () objectPathOaepOptions (ent48.take 32) = .ok c)
    ∧ (∃ c ct, CRYPTIFYJS.encryptMessage toyForge { publicKey := (), privateKey := () }
          (List.replicate 48 (7 : Byte)) (.str "hi")
        = .ok { key := toyForge.encode64 c,
                iv := toyForge.encode64 (((List.replicate 48 (7 : Byte)).drop 32).take 16),
                message := toyForge.encode64 ct }
      ∧ toyForge.rsaEncrypt () rsaUtilsOaepOptions ((List.replicate 48 (7 : Byte)).take 32)
          = .ok c)
    ∧ ((ent48.take 32, (ent48.drop 32).take 16)
        ≠ ((List.replicate 48 (7 : Byte)).take 32,
           ((List.replicate 48 (7 : Byte)).drop 32).take 16)) :=
  C5_fresh_key_iv toyForgeOk ent48 (List.replicate 48 (7 : Byte))
    (.obj [("a", .num 1)]) "hi" (by decide) (by decide) (by decide) rfl rfl (by decide)

/-- The `"hi"` envelope's ciphertext with a single bit flipped (the low bit
of its first byte, via XOR with a one-bit mask). -/
def hiTamperedCiphertext : Bytes :=
  xorBytes (toyForge.decode64 hiEnvelope.message)
    ((⟨1, by decide⟩ : Byte) :: List.replicate 15 (0 : Byte))

/-- C6, claim as stated, refuted: decrypting a ciphertext with a single bit
flipped does **not** fail — `aes.js` ignores the boolean result of
`decipher.finish()`, so both the symmetric decrypt and the service-level
`decryptMessage` silently return wrong plaintext (`"#hi\""` instead of
`"\"hi\""`). -/
theorem C6_tamper_counterexample :
    AES.decrypt toyForge (ent48.take 32) ((ent48.drop 32).take 16) hiTamperedCiphertext
      = .ok "#hi\x22"
    ∧ CRYPTIFYJS.decryptMessage toyForge toyService (.str hiEnvelope.key)
        (.str hiEnvelope.iv) (.str (toyForge.encode64 hiTamperedCiphertext))
      = .ok "#hi\x22"
    ∧ "#hi\x22" ≠ "\x22hi\x22" := by
  refine ⟨rfl, rfl, by decide⟩

/-- C6 amended: the symmetric decrypt fails (with the wrapper error, cause
lost) when the key length is not 16/24/32 or the IV is **shorter** than 16
bytes; an IV longer than 16 bytes is not rejected — forge silently truncates
it to its first 16 bytes, so decryption proceeds (and succeeds wherever the
16-byte prefix would); and padding validation failure after decryption is
**not** signalled: `decipher.finish()`'s boolean is discarded, and
`AES.decrypt` succeeds whenever the decrypted buffer UTF-8-decodes —
regardless of the padding flag. -/
theorem C6_decrypt_error_behaviour {PubKey PrivKey : Type}
    (F : Forge PubKey PrivKey) (key iv data : Bytes) (flag : Bool)
    (out : Bytes) (s : String) :
    (¬ forgeValidAesKey key →
      AES.decrypt F key iv data = .error (.mk "Error while decrypting data" none))
    ∧ (forgeValidAesKey key → iv.length < 16 →
      AES.decrypt F key iv data = .error (.mk "Error while decrypting data" none))
    ∧ (16 ≤ iv.length →
      AES.decrypt F key iv data = AES.decrypt F key (iv.take 16) data)
    ∧ (forgeAesCbcDecrypt F key iv data = .ok (flag, out) →
      forgeToString out = .ok s →
      AES.decrypt F key iv data = .ok s) := by
  refine ⟨?_, ?_, ?_, ?_⟩
  · intro hbad
    unfold AES.decrypt forgeAesCbcDecrypt
    rw [if_pos hbad]
    rfl
  · intro hkey hiv
    unfold AES.decrypt forgeAesCbcDecrypt
    rw [if_neg (by simpa using hkey), if_pos hiv]
    rfl
  · intro hle
    have h1 : ¬ iv.length < 16 := by omega
    have h2 : ¬ (iv.take 16).length < 16 := by rw [List.length_take]; omega
    have h3 : (iv.take 16).take 16 = iv.take 16 := by
      simp [List.take_take]
    unfold AES.decrypt forgeAesCbcDecrypt
    by_cases hk : forgeValidAesKey key
    · rw [if_neg (not_not_intro hk), if_neg (not_not_intro hk), if_neg h1, if_neg h2, h3]
    · rw [if_pos hk, if_pos hk]
  · intro hdec hs
    unfold AES.decrypt
    rw [hdec]
    simp only [hs]

/-- Witness for the amended C6 theorem: a one-byte key fails; a 20-byte IV is
truncated to its first 16 bytes and the decryption still succeeds; and the
tampered ciphertext (whose padding-check flag is irrelevant) decrypts without
error. -/
theorem C6_decrypt_error_behaviour_witness :
    AES.decrypt toyForge [(0 : Byte)] [] [] = .error (.mk "Error while decrypting data" none)
    ∧ AES.decrypt toyForge (ent48.take 32)
        (((ent48.drop 32).take 16) ++ List.replicate 4 (0 : Byte)) hiTamperedCiphertext
      = .ok "#hi\x22"
    ∧ AES.decrypt toyForge (ent48.take 32) ((ent48.drop 32).take 16) hiTamperedCiphertext
      = .ok "#hi\x22" := by
  refine ⟨?_, ?_, ?_⟩
  · exact (C6_decrypt_error_behaviour toyForge [(0 : Byte)] [] [] true [] "").1 (by decide)
  · exact ((C6_decrypt_error_behaviour toyForge (ent48.take 32)
      (((ent48.drop 32).take 16) ++ List.replicate 4 (0 : Byte)) hiTamperedCiphertext
      true [] "").2.2.1 (by decide)).trans rfl
  · exact (C6_decrypt_error_behaviour toyForge (ent48.take 32) ((ent48.drop 32).take 16)
      hiTamperedCiphertext true
      ((forgeAesCbcDecrypt toyForge (ent48.take 32) ((ent48.drop 32).take 16)
        hiTamperedCiphertext).toOption.getD (true, [])).2 "#hi\x22").2.2.2 rfl rfl

/-- C7 confirmed: `encrypt(null)` and `encrypt("a string")` fail with the
required/type validation errors, and `decryptMessage` fails with the required
error when any argument is null and with the type error on a truthy
non-string.  The forge collaborator, the service's keys and the entropy are
universally quantified while the result is a fixed validation error: the
failure happens before — and independently of — any cryptographic work
(no random draw, cipher or RSA operation can influence it). -/
theorem C7_validation_first {PubKey PrivKey : Type}
    (F : Forge PubKey PrivKey) (self : CRYPTIFYJS PubKey PrivKey)
    (entropy : Bytes) (other iv msg : JSValue) :
    CRYPTIFYJS.encrypt F self entropy .null
        = .error (jsError "Data is required for encryption")
    ∧ CRYPTIFYJS.encrypt F self entropy (.str "a string")
        = .error (jsError "Data must be an object")
    ∧ CRYPTIFYJS.decryptMessage F self .null iv msg
        = .error (jsError "Key, IV, and Message are required for decryption")
    ∧ CRYPTIFYJS.decryptMessage F self other .null msg
        = .error (jsError "Key, IV, and Message are required for decryption")
    ∧ CRYPTIFYJS.decryptMessage F self other iv .null
        = .error (jsError "Key, IV, and Message are required for decryption")
    ∧ CRYPTIFYJS.decryptMessage F self (.num 1) (.str "iv") (.str "msg")
        = .error (jsError "Key, IV, and Message must be strings") := by
  refine ⟨rfl, rfl, rfl, ?_, ?_, rfl⟩
  · cases h : jsTruthy other <;>
      cases h2 : jsTruthy iv <;>
        simp [CRYPTIFYJS.decryptMessage, h, h2, jsTruthy]
  · cases h : jsTruthy other <;>
      cases h2 : jsTruthy iv <;>
        simp [CRYPTIFYJS.decryptMessage, h, h2, jsTruthy]

/-- C8 confirmed: construction fails when the options object is missing, when
either key field is missing (the `TypeError` from `decode64(undefined)`), or
when either key does not parse; on success the service holds exactly the
decoded key pair (and, the embedding being pure, never mutates it). -/
theorem C8_constructor {PubKey PrivKey : Type}
    (F : Forge PubKey PrivKey) (p q : String) (pk : PubKey) (sk : PrivKey) :
    CRYPTIFYJS.mkService F none
        = .error (jsError "cryptify-js module requires an options object")
    ∧ CRYPTIFYJS.mkService F (some { publicKey := none, privateKey := some q })
        = .error decode64TypeError
    ∧ (∀ e, F.publicKeyFromPem (F.decode64 p) = .error e →
        CRYPTIFYJS.mkService F (some { publicKey := some p, privateKey := some q })
          = .error e)
    ∧ (F.publicKeyFromPem (F.decode64 p) = .ok pk →
        CRYPTIFYJS.mkService F (some { publicKey := some p, privateKey := none })
          = .error decode64TypeError)
    ∧ (∀ e, F.publicKeyFromPem (F.decode64 p) = .ok pk →
        F.privateKeyFromPem (F.decode64 q) = .error e →
        CRYPTIFYJS.mkService F (some { publicKey := some p, privateKey := some q })
          = .error e)
    ∧ (F.publicKeyFromPem (F.decode64 p) = .ok pk →
        F.privateKeyFromPem (F.decode64 q) = .ok sk →
        CRYPTIFYJS.mkService F (some { publicKey := some p, privateKey := some q })
          = .ok { publicKey := pk, privateKey := sk }) := by
  refine ⟨rfl, rfl, ?_, ?_, ?_, ?_⟩
  · intro e he
    unfold CRYPTIFYJS.mkService
    simp only [he]
  · intro hp
    unfold CRYPTIFYJS.mkService
    simp only [hp]
  · intro e hp hq
    unfold CRYPTIFYJS.mkService
    simp only [hp, hq]
  · intro hp hq
    unfold CRYPTIFYJS.mkService
    simp only [hp, hq]

/-- Witness for C8 at the toy instance with parseable key strings. -/
theorem C8_constructor_witness :
    CRYPTIFYJS.mkService toyForge
        (some { publicKey := some "AA", privateKey := some "BB" })
      = .ok { publicKey := (), privateKey := () } :=
  (C8_constructor toyForge "AA" "BB" () ()).2.2.2.2.2 rfl rfl

/-- A forge instance whose RSA operations always fail (as real OAEP does on a
malformed key or ciphertext), used to exercise the RSA failure arms of the
error-wrapping theorem; everything else is the toy instance. -/
def rsaFailForge : Forge Unit Unit :=
  { toyForge with
    rsaEncrypt := fun _ _ _ => .error (jsError "Encryption block is invalid.")
    rsaDecrypt := fun _ _ _ => .error (jsError "Encryption block is invalid.") }

/-- C9, claim as stated, refuted: a failure inside the pipeline is re-thrown
as the single wrapper error, but the wrapper's `cause` is `none` — the
original error (here the toy RSA unpadding failure
`"Encryption block is invalid."`) is **not** attached, because the source
passes the caught error itself as the `Error` constructor's second argument
instead of `{cause: error}`. -/
theorem C9_cause_counterexample :
    CRYPTIFYJS.decryptMessage toyForge toyService (.str "zz") (.str "iv") (.str "msg")
      = .error (JsError.mk "Error while decrypting message" none)
    ∧ (JsError.mk "Error while decrypting message" none).cause
        ≠ some (jsError "Encryption block is invalid.") := by
  refine ⟨rfl, by intro h; exact Option.noConfusion h⟩

/-- C9 amended: for each of the four public operations, a failure at any
stage of its cryptographic pipeline — the AES stage or RSA stage of
`encrypt` and `encryptMessage`, the RSA stage, AES stage or `JSON.parse`
stage of `decrypt` and `decryptMessage` — is caught and re-signalled as a
single wrapper error with that operation's fixed message, never silently
swallowed; but the original error is **not** attached as its cause: the
wrapper only inherits the inner error's own `cause` slot (absent for every
error this library or forge produces), because `new Error(msg, error)`
passes the error itself where an options object `{cause: error}` was
needed. -/
theorem C9_single_failure_domain {PubKey PrivKey : Type}
    {F : Forge PubKey PrivKey} (self : CRYPTIFYJS PubKey PrivKey)
    (k i m S : String) (e : JsError) (entropy : Bytes) (P : JSValue)
    (hk : k ≠ "") (hi : i ≠ "") (hm : m ≠ "") (hS : S ≠ "")
    (hTruthy : jsTruthy P = true) (hType : jsTypeof P = "object") :
    (AES.encrypt F entropy P = .error e →
      CRYPTIFYJS.encrypt F self entropy P
        = .error (JsError.mk "Error while encrypting data" e.cause))
    ∧ (∀ ed, AES.encrypt F entropy P = .ok ed →
        F.rsaEncrypt self.publicKey objectPathOaepOptions ed.key = .error e →
        CRYPTIFYJS.encrypt F self entropy P
          = .error (JsError.mk "Error while encrypting data" e.cause))
    ∧ (AES.encrypt F entropy (.str S) = .error e →
        CRYPTIFYJS.encryptMessage F self entropy (.str S)
          = .error (JsError.mk "Error while encrypting message" e.cause))
    ∧ (∀ ed, AES.encrypt F entropy (.str S) = .ok ed →
        RSA.encrypt F ed.key self.publicKey = .error e →
        CRYPTIFYJS.encryptMessage F self entropy (.str S)
          = .error (JsError.mk "Error while encrypting message" e.cause))
    ∧ (F.rsaDecrypt self.privateKey rsaUtilsOaepOptions (F.decode64 k) = .error e →
        CRYPTIFYJS.decryptMessage F self (.str k) (.str i) (.str m)
          = .error (JsError.mk "Error while decrypting message" e.cause))
    ∧ (∀ dk, RSA.decrypt F k self.privateKey = .ok dk →
        AES.decrypt F dk (F.decode64 i) (F.decode64 m) = .error e →
        CRYPTIFYJS.decryptMessage F self (.str k) (.str i) (.str m)
          = .error (JsError.mk "Error while decrypting message" e.cause))
    ∧ (∀ key iv data : Bytes, key ≠ [] → iv ≠ [] → data ≠ [] →
        F.rsaDecrypt self.privateKey objectPathOaepOptions key = .error e →
        CRYPTIFYJS.decrypt F self key iv data
          = .error (JsError.mk "Error while decrypting data" e.cause))
    ∧ (∀ (key iv data : Bytes) dk, key ≠ [] → iv ≠ [] → data ≠ [] →
        F.rsaDecrypt self.privateKey objectPathOaepOptions key = .ok dk →
        AES.decrypt F dk iv data = .error e →
        CRYPTIFYJS.decrypt F self key iv data
          = .error (JsError.mk "Error while decrypting data" e.cause))
    ∧ (∀ (key iv data : Bytes) dk s, key ≠ [] → iv ≠ [] → data ≠ [] →
        F.rsaDecrypt self.privateKey objectPathOaepOptions key = .ok dk →
        AES.decrypt F dk iv data = .ok s →
        jsonParse s = .error e →
        CRYPTIFYJS.decrypt F self key iv data
          = .error (JsError.mk "Error while decrypting data" e.cause)) := by
  refine ⟨?_, ?_, ?_, ?_, ?_, ?_, ?_, ?_, ?_⟩
  · intro he
    unfold CRYPTIFYJS.encrypt
    rw [hTruthy]
    simp only [Bool.not_true, Bool.false_eq_true, if_false]
    rw [if_neg (by rw [hType]; simp), he]
    rfl
  · intro ed hed he
    unfold CRYPTIFYJS.encrypt
    rw [hTruthy]
    simp only [Bool.not_true, Bool.false_eq_true, if_false]
    rw [if_neg (by rw [hType]; simp), hed]
    simp only [he]
    rfl
  · intro he
    unfold CRYPTIFYJS.encryptMessage
    rw [if_neg (by simp [jsTruthy, hS]), if_neg (by simp [jsTypeof]), he]
    rfl
  · intro ed hed he
    unfold CRYPTIFYJS.encryptMessage
    rw [if_neg (by simp [jsTruthy, hS]), if_neg (by simp [jsTypeof]), hed]
    simp only [he]
    rfl
  · intro he
    unfold CRYPTIFYJS.decryptMessage
    rw [if_neg (by
      simp only [jsTruthy, Bool.not_eq_true]
      rw [decide_eq_true hk, decide_eq_true hi, decide_eq_true hm]
      simp)]
    simp only [RSA.decrypt, he]
    rfl
  · intro dk hdk he
    unfold CRYPTIFYJS.decryptMessage
    rw [if_neg (by
      simp only [jsTruthy, Bool.not_eq_true]
      rw [decide_eq_true hk, decide_eq_true hi, decide_eq_true hm]
      simp)]
    simp only [hdk, he]
    rfl
  · intro key iv data hkey hiv hdata he
    unfold CRYPTIFYJS.decrypt
    rw [if_neg (by
      simp only [List.isEmpty_eq_true, Bool.or_eq_true, not_or]
      exact ⟨⟨hkey, hiv⟩, hdata⟩)]
    simp only [he]
    rfl
  · intro key iv data dk hkey hiv hdata hdk he
    unfold CRYPTIFYJS.decrypt
    rw [if_neg (by
      simp only [List.isEmpty_eq_true, Bool.or_eq_true, not_or]
      exact ⟨⟨hkey, hiv⟩, hdata⟩)]
    simp only [hdk, he]
    rfl
  · intro key iv data dk s hkey hiv hdata hdk haes hjson
    unfold CRYPTIFYJS.decrypt
    rw [if_neg (by
      simp only [List.isEmpty_eq_true, Bool.or_eq_true, not_or]
      exact ⟨⟨hkey, hiv⟩, hdata⟩)]
    simp only [hdk, haes, hjson]
    rfl

/-- The AES stage output of `encrypt` / `encryptMessage` on the RSA-failing
instance, used to exercise the RSA failure arms non-vacuously. -/
def c9AesDataObject : EncryptedData :=
  (AES.encrypt rsaFailForge ent48 (.obj [("a", .num 1)])).toOption.getD
    { key := [], iv := [], data := [] }

/-- The AES stage output for the message path on the RSA-failing instance. -/
def c9AesDataMessage : EncryptedData :=
  (AES.encrypt rsaFailForge ent48 (.str "hi")).toOption.getD
    { key := [], iv := [], data := [] }

/-- Witness for the amended C9 theorem: every one of the nine failure arms is
exercised at a concrete input — empty entropy makes the AES stage fail, the
RSA-failing instance makes the RSA stages fail, a bad toy RSA ciphertext or a
short decrypted key makes the decrypt stages fail, and a non-JSON plaintext
makes the `JSON.parse` stage fail — and every resulting wrapper error carries
no cause. -/
theorem C9_single_failure_domain_witness :
    CRYPTIFYJS.encrypt toyForge toyService [] (.obj [("a", .num 1)])
        = .error (JsError.mk "Error while encrypting data" none)
    ∧ CRYPTIFYJS.encrypt rsaFailForge toyService ent48 (.obj [("a", .num 1)])
        = .error (JsError.mk "Error while encrypting data" none)
    ∧ CRYPTIFYJS.encryptMessage toyForge toyService [] (.str "hi")
        = .error (JsError.mk "Error while encrypting message" none)
    ∧ CRYPTIFYJS.encryptMessage rsaFailForge toyService ent48 (.str "hi")
        = .error (JsError.mk "Error while encrypting message" none)
    ∧ CRYPTIFYJS.decryptMessage toyForge toyService (.str "zz") (.str "iv") (.str "msg")
        = .error (JsError.mk "Error while decrypting message" none)
    ∧ CRYPTIFYJS.decryptMessage toyForge toyService
        (.str (toyForge.encode64 (oaepTag rsaUtilsOaepOptions ++ [(5 : Byte)])))
        (.str "iv") (.str "msg")
        = .error (JsError.mk "Error while decrypting message" none)
    ∧ CRYPTIFYJS.decrypt toyForge toyService [(122 : Byte)] [(0 : Byte)] [(0 : Byte)]
        = .error (JsError.mk "Error while decrypting data" none)
    ∧ CRYPTIFYJS.decrypt toyForge toyService
        (oaepTag objectPathOaepOptions ++ [(5 : Byte)]) [(0 : Byte)] [(0 : Byte)]
        = .error (JsError.mk "Error while decrypting data" none)
    ∧ CRYPTIFYJS.decrypt toyForge toyService
        (oaepTag objectPathOaepOptions ++ ent48.take 32)
        (List.replicate 16 (0 : Byte)) ((120 : Byte) :: List.replicate 15 (15 : Byte))
        = .error (JsError.mk "Error while decrypting data" none) := by
  refine ⟨?_, ?_, ?_, ?_, ?_, ?_, ?_, ?_, ?_⟩
  · exact (C9_single_failure_domain toyService "x" "x" "x" "x"
      (JsError.mk "Error while encrypting data" none) [] (.obj [("a", .num 1)])
      (by decide) (by decide) (by decide) (by decide) rfl rfl).1 rfl
  · exact (C9_single_failure_domain (F := rsaFailForge) toyService "x" "x" "x" "x"
      (jsError "Encryption block is invalid.") ent48 (.obj [("a", .num 1)])
      (by decide) (by decide) (by decide) (by decide) rfl rfl).2.1
      c9AesDataObject rfl rfl
  · exact (C9_single_failure_domain toyService "x" "x" "x" "hi"
      (JsError.mk "Error while encrypting data" none) [] (.obj [("a", .num 1)])
      (by decide) (by decide) (by decide) (by decide) rfl rfl).2.2.1 rfl
  · exact (C9_single_failure_domain (F := rsaFailForge) toyService "x" "x" "x" "hi"
      (JsError.mk "Error while encrypting message" none) ent48 (.obj [("a", .num 1)])
      (by decide) (by decide) (by decide) (by decide) rfl rfl).2.2.2.1
      c9AesDataMessage rfl rfl
  · exact (C9_single_failure_domain toyService "zz" "iv" "msg" "x"
      (jsError "Encryption block is invalid.") [] (.obj [("a", .num 1)])
      (by decide) (by decide) (by decide) (by decide) rfl rfl).2.2.2.2.1 rfl
  · exact (C9_single_failure_domain toyService
      (toyForge.encode64 (oaepTag rsaUtilsOaepOptions ++ [(5 : Byte)])) "iv" "msg" "x"
      (JsError.mk "Error while decrypting data" none) [] (.obj [("a", .num 1)])
      (by decide) (by decide) (by decide) (by decide) rfl rfl).2.2.2.2.2.1
      [(5 : Byte)] rfl rfl
  · exact (C9_single_failure_domain toyService "x" "x" "x" "x"
      (jsError "Encryption block is invalid.") [] (.obj [("a", .num 1)])
      (by decide) (by decide) (by decide) (by decide) rfl rfl).2.2.2.2.2.2.1
      [(122 : Byte)] [(0 : Byte)] [(0 : Byte)] (by decide) (by decide) (by decide) rfl
  · exact (C9_single_failure_domain toyService "x" "x" "x" "x"
      (JsError.mk "Error while decrypting data" none) [] (.obj [("a", .num 1)])
      (by decide) (by decide) (by decide) (by decide) rfl rfl).2.2.2.2.2.2.2.1
      (oaepTag objectPathOaepOptions ++ [(5 : Byte)]) [(0 : Byte)] [(0 : Byte)]
      [(5 : Byte)] (by decide) (by decide) (by decide) rfl rfl
  · exact (C9_single_failure_domain toyService "x" "x" "x" "x"
      jsonSyntaxError [] (.obj [("a", .num 1)])
      (by decide) (by decide) (by decide) (by decide) rfl rfl).2.2.2.2.2.2.2.2
      (oaepTag objectPathOaepOptions ++ ent48.take 32)
      (List.replicate 16 (0 : Byte)) ((120 : Byte) :: List.replicate 15 (15 : Byte))
      (ent48.take 32) "x" (by decide) (by decide) (by decide) rfl rfl rfl

/-- C10 confirmed: the truthiness check conflates the empty string with a
missing input — `encryptMessage("")` throws the required error instead of
encrypting, and `decryptMessage` throws the required error whenever any of
its three arguments is the empty string, whatever the other two are. -/
theorem C10_empty_string_required {PubKey PrivKey : Type}
    (F : Forge PubKey PrivKey) (self : CRYPTIFYJS PubKey PrivKey)
    (entropy : Bytes) (other iv msg : JSValue) :
    CRYPTIFYJS.encryptMessage F self entropy (.str "")
        = .error (jsError "Message is required for encryption")
    ∧ CRYPTIFYJS.decryptMessage F self (.str "") iv msg
        = .error (jsError "Key, IV, and Message are required for decryption")
    ∧ CRYPTIFYJS.decryptMessage F self other (.str "") msg
        = .error (jsError "Key, IV, and Message are required for decryption")
    ∧ CRYPTIFYJS.decryptMessage F self other iv (.str "")
        = .error (jsError "Key, IV, and Message are required for decryption") := by
  refine ⟨rfl, rfl, ?_, ?_⟩
  · cases h : jsTruthy other <;>
      cases h2 : jsTruthy iv <;>
        simp [CRYPTIFYJS.decryptMessage, h, h2, jsTruthy]
  · cases h : jsTruthy other <;>
      cases h2 : jsTruthy iv <;>
        simp [CRYPTIFYJS.decryptMessage, h, h2, jsTruthy]
